import Mathlib

/-!
The relay engine of `poly-relayer`.

A shallow embedding of the relay engine of `poly-relayer`
(`relayer/eth/eth.go`, `relayer/neo/neo.go`, `relayer/ok/listener.go`,
`relayer/run.go`) and theorems about it.

Conventions of the embedding.

* A Go method with a pointer receiver `*msg.Tx` that mutates the message is a
  function returning the message after the call.
* Every call that leaves the process (chain node, contract binding, wallet,
  the compose callback, handler `Init`/`Start`) is an oracle over an abstract
  world `σ`: it receives the world and returns its Go results together with
  the next world.  Each such call is also recorded, in order, in a trace of
  events, so that "X is not called" is a statement about the trace.
* A Go result pair `(v, err)` is kept as a pair wherever the code stores `v`
  before it looks at `err`.
* A nil dereference is the outcome `Outcome.panic`.
-/

namespace PolyRelayer

/-! ## Go values -/

/-- Byte strings (`[]byte`); the nil slice and the empty slice are both `[]`. -/
abbrev Bytes := List Nat

/-- Go `error` values that are not nil.  `new` is a value made by `errors.New`
(a package-level sentinel, identified by its text), `errorf` a value made by
`fmt.Errorf` whose format has no `%w` verb (it wraps nothing, whatever was
formatted into its text), `wrap` a value made by `fmt.Errorf` with `%w`. -/
inductive GoError where
  | new (text : String)
  | errorf (format : String)
  | wrap (format : String) (inner : GoError)
  deriving DecidableEq, Repr

/-- Go `errors.Is(err, target)`: `err` or some error in its `Unwrap` chain is
`target`. -/
def GoError.is : GoError → GoError → Bool
  | .wrap f inner, target => decide (GoError.wrap f inner = target) || GoError.is inner target
  | e, target => decide (e = target)

/-- How a Go call ends: it returns nil, returns an error, or panics on a nil
dereference. -/
inductive Outcome where
  | ok
  | err (e : GoError)
  | panic
  deriving DecidableEq, Repr

/-- A value wrapped into the range of a Go `int` (64 bits, two's
complement). -/
def wrapInt (x : Int) : Int :=
  (x + 9223372036854775808) % 18446744073709551616 - 9223372036854775808

/-- Go `x++` on an `int`: the increment wraps around at the largest value. -/
def incInt (x : Int) : Int := wrapInt (x + 1)

/-- Go `encoding/hex`: value of one hexadecimal digit (`0-9`, `a-f`, `A-F`). -/
def hexVal (c : Char) : Option Nat :=
  let n := c.toNat
  if 48 ≤ n ∧ n ≤ 57 then some (n - 48)
  else if 97 ≤ n ∧ n ≤ 102 then some (n - 87)
  else if 65 ≤ n ∧ n ≤ 70 then some (n - 55)
  else none

/-- Go `hex.ErrLength`. -/
def ErrLength : GoError := GoError.new "encoding/hex: odd length hex string"

/-- Go `hex.InvalidByteError`. -/
def InvalidByteError : GoError := GoError.errorf "encoding/hex: invalid byte: %#U"

/-- Go `hex.Decode` on the characters of the input: pairs of digits give
bytes; the first character that is no digit is an `InvalidByteError`; an odd
length whose last character is a digit is `ErrLength`. -/
def decodeHexChars : List Char → Except GoError Bytes
  | [] => Except.ok []
  | [a] =>
    match hexVal a with
    | none => Except.error InvalidByteError
    | some _ => Except.error ErrLength
  | a :: b :: rest =>
    match hexVal a with
    | none => Except.error InvalidByteError
    | some x =>
      match hexVal b with
      | none => Except.error InvalidByteError
      | some y =>
        match decodeHexChars rest with
        | Except.ok r => Except.ok ((x * 16 + y) :: r)
        | Except.error e => Except.error e

/-- Go `hex.DecodeString`, for callers that drop the bytes when the error is
not nil. -/
def DecodeString (s : String) : Except GoError Bytes := decodeHexChars s.toList

/-! ## The message model (`msg.Tx`) -/

/-- Modelled from the spec: the tag of `msg.Message`, a tagged union with at
least the variant `POLY`; the `msg` package is outside the shown sources. -/
inductive TxType where
  | POLY
  | other (tag : Nat)
  deriving DecidableEq, Repr

/-- A relay-chain header (`*types.Header`), kept as the bytes its
`GetMessage()` returns. -/
structure Header where
  message : Bytes
  deriving DecidableEq, Repr

/-- A managed account (`accounts.Account`). -/
structure Account where
  Address : Bytes
  deriving DecidableEq, Repr

/-- Modelled from the spec: the decoded cross-chain call parameters
(`ccom.MakeTxParam`): target chain, target contract, payload. -/
structure MakeTxParam where
  ToChainID : Nat
  ToContractAddress : Bytes
  Args : Bytes
  deriving DecidableEq, Repr

/-- Modelled from the spec: the record `msg.Tx` (section 3 of the spec), with
the fields the shown sources read or write.  Pointer fields are options.
`Attempts` is the retry counter, a Go `int` (64 bits). -/
structure Tx where
  kind : TxType
  Attempts : Int
  TxId : String
  PolyHash : String
  SrcChainId : Nat
  SrcHeight : Nat
  SrcParam : String
  SrcEvent : Bytes
  Param : Option MakeTxParam
  SrcProofHeight : Nat
  SrcProof : Bytes
  PolyHeader : Option Header
  AnchorHeader : Option Header
  AnchorProof : String
  AuditPath : String
  PolySigs : Bytes
  DstChainId : Nat
  DstPolyEpochStartHeight : Nat
  DstPolyKeepers : Bytes
  DstGasLimit : Nat
  DstGasPrice : String
  DstGasPriceX : String
  DstSender : Option Account
  DstData : Bytes
  DstHash : String
  deriving DecidableEq, Repr

/-- Go `m.Type()`. -/
def Tx.Type (m : Tx) : TxType := m.kind

/-- Modelled from the spec: `msg.ERR_INVALID_TX`, the dedicated error kind of
a permanently invalid message; a sentinel of the `msg` package. -/
def ERR_INVALID_TX : GoError := GoError.new "Invalid tx"

/-- The compose callback `msg.PolyComposer`, `func(*Tx) error`: it may rewrite
the message and returns nil or an error. -/
abbrev PolyComposer (σ : Type) := Tx → σ → (Tx × Option GoError) × σ

/-- A zero-valued message, to build concrete messages from. -/
def Tx.zero : Tx :=
  { kind := TxType.POLY, Attempts := 0, TxId := "", PolyHash := "", SrcChainId := 0,
    SrcHeight := 0, SrcParam := "", SrcEvent := [], Param := none, SrcProofHeight := 0,
    SrcProof := [], PolyHeader := none, AnchorHeader := none, AnchorProof := "",
    AuditPath := "", PolySigs := [], DstChainId := 0, DstPolyEpochStartHeight := 0,
    DstPolyKeepers := [], DstGasLimit := 0, DstGasPrice := "", DstGasPriceX := "",
    DstSender := none, DstData := [], DstHash := "" }

/-! ## `relayer/eth/eth.go` -/

namespace Eth

/-- A `*big.Float`, kept as the text it was parsed from. -/
structure BigFloat where
  text : String
  deriving DecidableEq, Repr

/-- Calls of the eth Submitter that leave the process, as recorded in the
trace. -/
inductive Event where
  | NewEthCrossChainData
  | GetCurEpochStartHeight
  | GetCurEpochConPubKeyBytes
  | CheckIfFromChainTxExist (srcChainId : Nat) (txId : Bytes)
  | compose (m : Tx)
  | Send (addr : Bytes) (amount : Nat) (gasLimit : Nat) (gasPrice : Option Int)
      (gasPriceX : Option BigFloat) (data : Bytes)
  | SendWithAccount (account : Account) (addr : Bytes) (amount : Nat) (gasLimit : Nat)
      (gasPrice : Option Int) (gasPriceX : Option BigFloat) (data : Bytes)
  | Pop
  | Push (tx : Tx)
  | Sleep
  deriving DecidableEq, Repr

/-- Whether an event is a wallet broadcast (`wallet.Send` or
`wallet.SendWithAccount`). -/
def Event.isBroadcast : Event → Bool
  | .Send .. => true
  | .SendWithAccount .. => true
  | _ => false

/-- Whether an event is an epoch or keeper query to the node (including the
creation of the contract binding it goes through). -/
def Event.isNodeQuery : Event → Bool
  | .NewEthCrossChainData => true
  | .GetCurEpochStartHeight => true
  | .GetCurEpochConPubKeyBytes => true
  | .CheckIfFromChainTxExist .. => true
  | _ => false

/-- Whether an event is an invocation of the compose callback. -/
def Event.isCompose : Event → Bool
  | .compose _ => true
  | _ => false

/-- The collaborators of the eth Submitter that are outside the shown sources:
the contract binding `eccd_abi`, the ABI packer, the number parsers of
`math/big`, `Tx.GetTxId`, the wallet, the cancellation signal (`Done`: whether
the context is cancelled in this world) and the faults of the bus (`PopFault`:
whether this `bus.Pop` returns an error). -/
structure Chain (σ : Type) where
  NewEthCrossChainData : σ → Option GoError × σ
  GetCurEpochStartHeight : σ → (Nat × Option GoError) × σ
  GetCurEpochConPubKeyBytes : σ → (Bytes × Option GoError) × σ
  CheckIfFromChainTxExist : Nat → Bytes → σ → (Bool × Option GoError) × σ
  GetTxId : Tx → Bytes × Option GoError
  Pack : String → List Bytes → Bytes × Option GoError
  SetStringInt : String → Option Int
  SetStringFloat : String → Option BigFloat
  Send : Bytes → Nat → Nat → Option Int → Option BigFloat → Bytes → σ →
    (String × Option GoError) × σ
  SendWithAccount : Account → Bytes → Nat → Nat → Option Int → Option BigFloat → Bytes → σ →
    (String × Option GoError) × σ
  Done : σ → Bool
  PopFault : σ → Option GoError × σ

/-- The part of `config.SubmitterConfig` the Submitter reads after `Init`. -/
structure SubmitterConfig where
  ChainId : Nat
  deriving DecidableEq, Repr

/-- The eth `Submitter` after `Init`: `config` and `sdk` are set; `wallet` is
set only when the configuration has a wallet (`hasWallet`). -/
structure Submitter where
  config : SubmitterConfig
  name : String
  ccd : Bytes
  ccm : Bytes
  hasWallet : Bool
  deriving DecidableEq, Repr

/-- What a call on a message leaves behind: how it ended, the message, the
world, and the calls it made, in order. -/
structure Result (σ : Type) where
  out : Outcome
  tx : Tx
  world : σ
  trace : List Event

/-- Go `Submitter.GetPolyEpochStartHeight`. -/
def GetPolyEpochStartHeight {σ : Type} (c : Chain σ) (w : σ) :
    (Nat × Option GoError) × σ × List Event :=
  match c.NewEthCrossChainData w with
  | (some e, w1) => ((0, some e), w1, [Event.NewEthCrossChainData])
  | (none, w1) =>
    match c.GetCurEpochStartHeight w1 with
    | (r, w2) => (r, w2, [Event.NewEthCrossChainData, Event.GetCurEpochStartHeight])

/-- Go `Submitter.GetPolyKeepers`. -/
def GetPolyKeepers {σ : Type} (c : Chain σ) (w : σ) :
    (Bytes × Option GoError) × σ × List Event :=
  match c.NewEthCrossChainData w with
  | (some e, w1) => (([], some e), w1, [Event.NewEthCrossChainData])
  | (none, w1) =>
    match c.GetCurEpochConPubKeyBytes w1 with
    | (r, w2) => (r, w2, [Event.NewEthCrossChainData, Event.GetCurEpochConPubKeyBytes])

/-- Go `Submitter.submit`. -/
def submit {σ : Type} (s : Submitter) (c : Chain σ) (tx : Tx) (w : σ) : Result σ :=
  if tx.DstData.length = 0 then ⟨Outcome.ok, tx, w, []⟩
  else
    match (if tx.DstGasPrice ≠ "" then (c.SetStringInt tx.DstGasPrice).map some else some none) with
    | none => ⟨Outcome.err (GoError.errorf "%s submit invalid gas price %s"), tx, w, []⟩
    | some gasPrice =>
      match (if tx.DstGasPriceX ≠ "" then (c.SetStringFloat tx.DstGasPriceX).map some
             else some none) with
      | none => ⟨Outcome.err (GoError.errorf "%s submit invalid gas priceX %s"), tx, w, []⟩
      | some gasPriceX =>
        if s.hasWallet = false then ⟨Outcome.panic, tx, w, []⟩
        else
          match tx.DstSender with
          | some account =>
            match c.SendWithAccount account s.ccm 0 tx.DstGasLimit gasPrice gasPriceX tx.DstData w with
            | ((hash, e), w1) =>
              ⟨(match e with | none => Outcome.ok | some e => Outcome.err e),
               { tx with DstHash := hash }, w1,
               [Event.SendWithAccount account s.ccm 0 tx.DstGasLimit gasPrice gasPriceX tx.DstData]⟩
          | none =>
            match c.Send s.ccm 0 tx.DstGasLimit gasPrice gasPriceX tx.DstData w with
            | ((hash, e), w1) =>
              ⟨(match e with | none => Outcome.ok | some e => Outcome.err e),
               { tx with DstHash := hash }, w1,
               [Event.Send s.ccm 0 tx.DstGasLimit gasPrice gasPriceX tx.DstData]⟩

/-- Go `Submitter.processPolyTx`. -/
def processPolyTx {σ : Type} (s : Submitter) (c : Chain σ) (tx : Tx) (w : σ) : Result σ :=
  match c.GetTxId tx with
  | (_, some e) => ⟨Outcome.err e, tx, w, []⟩
  | (txId, none) =>
    match c.NewEthCrossChainData w with
    | (some e, w1) => ⟨Outcome.err e, tx, w1, [Event.NewEthCrossChainData]⟩
    | (none, w1) =>
      let t1 := [Event.NewEthCrossChainData, Event.CheckIfFromChainTxExist tx.SrcChainId txId]
      match c.CheckIfFromChainTxExist tx.SrcChainId txId w1 with
      | ((_, some e), w2) => ⟨Outcome.err e, tx, w2, t1⟩
      | ((true, none), w2) => ⟨Outcome.ok, tx, w2, t1⟩
      | ((false, none), w2) =>
        match DecodeString tx.AnchorProof with
        | Except.error _ =>
          ⟨Outcome.err (GoError.errorf "%s processPolyTx decode anchor proof hex error %v"),
           tx, w2, t1⟩
        | Except.ok proof =>
          let anchor : Bytes := match tx.AnchorHeader with
            | some h => h.message
            | none => []
          match DecodeString tx.AuditPath with
          | Except.error _ =>
            ⟨Outcome.err (GoError.errorf "%s failed to decode audit path %v"), tx, w2, t1⟩
          | Except.ok path =>
            match tx.PolyHeader with
            | none => ⟨Outcome.panic, tx, w2, t1⟩
            | some header =>
              match c.Pack "verifyHeaderAndExecuteTx" [path, header.message, proof, anchor, tx.PolySigs] with
              | (data, some _) =>
                ⟨Outcome.err (GoError.errorf "%s processPolyTx pack tx error %v"),
                 { tx with DstData := data }, w2, t1⟩
              | (data, none) =>
                let r := submit s c { tx with DstData := data } w2
                { r with trace := t1 ++ r.trace }

/-- Go `Submitter.ProcessTx`. -/
def ProcessTx {σ : Type} (s : Submitter) (c : Chain σ) (m : Tx) (compose : PolyComposer σ)
    (w : σ) : Result σ :=
  if m.Type ≠ TxType.POLY then
    ⟨Outcome.err (GoError.errorf "%s desired message is not poly tx %v"), m, w, []⟩
  else if m.DstChainId ≠ s.config.ChainId then
    ⟨Outcome.err (GoError.errorf "%s message dst chain does not match %v"), m, w, []⟩
  else
    match GetPolyEpochStartHeight c w with
    | ((h, herr), w1, t1) =>
      let m1 := { m with DstPolyEpochStartHeight := h }
      match herr with
      | some _ =>
        ⟨Outcome.err (GoError.errorf "%s fetch dst chain poly epoch height error %v"), m1, w1, t1⟩
      | none =>
        match GetPolyKeepers c w1 with
        | ((k, kerr), w2, t2) =>
          let m2 := { m1 with DstPolyKeepers := k }
          match kerr with
          | some _ =>
            ⟨Outcome.err (GoError.errorf "%s fetch dst chain poly keepers error %v"),
             m2, w2, t1 ++ t2⟩
          | none =>
            match compose m2 w2 with
            | ((m3, some e), w3) => ⟨Outcome.err e, m3, w3, t1 ++ t2 ++ [Event.compose m2]⟩
            | ((m3, none), w3) =>
              let r := processPolyTx s c m3 w3
              { r with trace := t1 ++ t2 ++ [Event.compose m2] ++ r.trace }

/-- The state of one worker loop (`Submitter.run`) between iterations: the bus
it shares (a queue: `Pop` takes the head, `Push` appends), the world, the
calls made so far, and whether the loop has ended (`some Outcome.ok`: it
returned nil after cancellation; `some Outcome.panic`: it crashed). -/
structure LoopState (σ : Type) where
  bus : List Tx
  world : σ
  trace : List Event
  exited : Option Outcome

/-- One iteration of the `for` loop of Go `Submitter.run`. -/
def runStep {σ : Type} (s : Submitter) (c : Chain σ) (account : Account)
    (compose : PolyComposer σ) (st : LoopState σ) : LoopState σ :=
  match st.exited with
  | some _ => st
  | none =>
    if c.Done st.world = true then { st with exited := some Outcome.ok }
    else
      match c.PopFault st.world with
      | (some _, w1) => { st with world := w1, trace := st.trace ++ [Event.Pop] }
      | (none, w1) =>
        match st.bus with
        | [] => { st with world := w1, trace := st.trace ++ [Event.Pop, Event.Sleep] }
        | tx :: rest =>
          let r := ProcessTx s c { tx with DstSender := some account } compose w1
          match r.out with
          | Outcome.ok =>
            { bus := rest, world := r.world, trace := st.trace ++ [Event.Pop] ++ r.trace,
              exited := none }
          | Outcome.panic =>
            { bus := rest, world := r.world, trace := st.trace ++ [Event.Pop] ++ r.trace,
              exited := some Outcome.panic }
          | Outcome.err e =>
            if e.is ERR_INVALID_TX = true then
              { bus := rest, world := r.world, trace := st.trace ++ [Event.Pop] ++ r.trace,
                exited := none }
            else
              let tx1 := { r.tx with Attempts := incInt r.tx.Attempts }
              { bus := rest ++ [tx1], world := r.world,
                trace := st.trace ++ [Event.Pop] ++ r.trace ++ [Event.Push tx1],
                exited := none }

/-- Go `Submitter.run`, for a given number of iterations of its loop. -/
def run {σ : Type} (s : Submitter) (c : Chain σ) (account : Account)
    (compose : PolyComposer σ) : Nat → LoopState σ → LoopState σ
  | 0, st => st
  | n + 1, st => run s c account compose n (runStep s c account compose st)

/-- A sample world for the eth Submitter: the node's recorded epoch start
height, its keeper set, and the `(SrcChainId, TxId)` pairs already relayed. -/
structure SampleWorld where
  epoch : Nat
  keepers : Bytes
  relayed : List (Nat × Bytes)
  deriving DecidableEq, Repr

/-- A sample node and wallet over `SampleWorld`: every call succeeds, the
queries answer from the world, and a broadcast returns the hash `"0xd57"`. -/
def sampleChain : Chain SampleWorld where
  NewEthCrossChainData := fun w => (none, w)
  GetCurEpochStartHeight := fun w => ((w.epoch, none), w)
  GetCurEpochConPubKeyBytes := fun w => ((w.keepers, none), w)
  CheckIfFromChainTxExist := fun chain txId w => ((decide ((chain, txId) ∈ w.relayed), none), w)
  GetTxId := fun tx =>
    match DecodeString tx.TxId with
    | Except.ok b => (b, none)
    | Except.error _ => ([], some (GoError.errorf "GetTxId Invalid tx id hex %v"))
  Pack := fun method args => (method.toList.map Char.toNat ++ args.foldr (fun a b => a ++ b) [], none)
  SetStringInt := fun t => t.toInt?
  SetStringFloat := fun t => some ⟨t⟩
  Send := fun _ _ _ _ _ _ w => (("0xd57", none), w)
  SendWithAccount := fun _ _ _ _ _ _ _ w => (("0xd57", none), w)
  Done := fun _ => false
  PopFault := fun w => (none, w)

/-- A sample node that is down: every query and every broadcast fails. -/
def downChain : Chain SampleWorld where
  NewEthCrossChainData := fun w => (none, w)
  GetCurEpochStartHeight := fun w => ((0, some (GoError.errorf "dial tcp: connection refused")), w)
  GetCurEpochConPubKeyBytes := fun w => (([], some (GoError.errorf "dial tcp: connection refused")), w)
  CheckIfFromChainTxExist := fun _ _ w => ((false, some (GoError.errorf "dial tcp: connection refused")), w)
  GetTxId := sampleChain.GetTxId
  Pack := sampleChain.Pack
  SetStringInt := sampleChain.SetStringInt
  SetStringFloat := sampleChain.SetStringFloat
  Send := fun _ _ _ _ _ _ w => (("", some (GoError.errorf "dial tcp: connection refused")), w)
  SendWithAccount := fun _ _ _ _ _ _ _ w => (("", some (GoError.errorf "dial tcp: connection refused")), w)
  Done := fun _ => false
  PopFault := fun w => (none, w)

/-- A sample node whose number parsers accept nothing: every gas price is
unparseable. -/
def strictChain : Chain SampleWorld :=
  { sampleChain with SetStringInt := fun _ => none, SetStringFloat := fun _ => none }

/-- A sample compose callback: it attaches a header, an empty anchor proof
and an audit path, and succeeds. -/
def sampleCompose : PolyComposer SampleWorld := fun m w =>
  (({ m with PolyHeader := some ⟨[1, 2]⟩, AnchorProof := "", AuditPath := "0a0b", PolySigs := [7] },
    none), w)

/-- A sample eth Submitter, configured for chain 6. -/
def sampleSubmitter : Submitter :=
  { config := ⟨6⟩, name := "bsc", ccd := [204], ccm := [205], hasWallet := true }

/-- A sample managed account. -/
def sampleAccount : Account := ⟨[170]⟩

/-- The calls to the compose callback in a trace: the message each was
invoked on, in order. -/
def composeArgs : List Event → List Tx
  | [] => []
  | Event.compose m :: rest => m :: composeArgs rest
  | _ :: rest => composeArgs rest

/-- Whether, from this state on, the loop pops the only message on the bus and
`ProcessTx` fails on it with an error that is not `ERR_INVALID_TX`, `n`
iterations in a row. -/
def failsInARow {σ : Type} (s : Submitter) (c : Chain σ) (account : Account)
    (compose : PolyComposer σ) : Nat → LoopState σ → Bool
  | 0, _ => true
  | n + 1, st =>
    st.exited.isNone && !c.Done st.world && (c.PopFault st.world).1.isNone &&
    (match st.bus with
     | [tx] =>
       match (ProcessTx s c { tx with DstSender := some account } compose
                (c.PopFault st.world).2).out with
       | Outcome.err e => !e.is ERR_INVALID_TX
       | _ => false
     | _ => false) &&
    failsInARow s c account compose n (runStep s c account compose st)

/-- Follow the message at position `i` of the bus through `n` iterations of
the loop.  The result is `some (k, j)` when the loop makes the `n` iterations
without ending before one of them, the followed message is popped `k` times,
`ProcessTx` fails on it each time with an error that is not `ERR_INVALID_TX`,
and the message is at position `j` of the bus afterwards; iterations that pop
other messages, or whose `Pop` fails, may come in between.  It is `none`
otherwise. -/
def follow {σ : Type} (s : Submitter) (c : Chain σ) (account : Account)
    (compose : PolyComposer σ) : Nat → LoopState σ → Nat → Option (Nat × Nat)
  | 0, _, i => some (0, i)
  | n + 1, st, i =>
    if st.exited.isSome = true then none
    else if c.Done st.world = true then none
    else
      match (c.PopFault st.world).1 with
      | some _ => follow s c account compose n (runStep s c account compose st) i
      | none =>
        match i, st.bus with
        | 0, tx :: rest =>
          match (ProcessTx s c { tx with DstSender := some account } compose
                  (c.PopFault st.world).2).out with
          | Outcome.err e =>
            if e.is ERR_INVALID_TX = true then none
            else
              (follow s c account compose n (runStep s c account compose st) rest.length).map
                (fun r => (r.1 + 1, r.2))
          | _ => none
        | j + 1, _ :: _ => follow s c account compose n (runStep s c account compose st) j
        | _, [] => none

/-- A sample compose callback that rewrites the retry counter: it sets
`Attempts` to 0 and fails. -/
def resetCompose : PolyComposer SampleWorld := fun m w =>
  (({ m with Attempts := 0 }, some (GoError.errorf "merkle proof not ready")), w)

/-- The answers of the node to the two queries of an attempt that starts in
world `w`, read off the node itself: the value `GetCurEpochStartHeight`
returns and the value `GetCurEpochConPubKeyBytes` returns, each through a
fresh contract binding and in the world the previous call left, when all
four calls succeed. -/
def epochAnswers {σ : Type} (c : Chain σ) (w : σ) : Option (Nat × Bytes) :=
  match c.NewEthCrossChainData w with
  | (some _, _) => none
  | (none, w1) =>
    match c.GetCurEpochStartHeight w1 with
    | ((_, some _), _) => none
    | ((h, none), w2) =>
      match c.NewEthCrossChainData w2 with
      | (some _, _) => none
      | (none, w3) =>
        match c.GetCurEpochConPubKeyBytes w3 with
        | ((_, some _), _) => none
        | ((k, none), _) => some (h, k)

/-- The epoch values attached in a trace: the `DstPolyEpochStartHeight` and
`DstPolyKeepers` of each message the compose callback was invoked on. -/
def attached (t : List Event) : List (Nat × Bytes) :=
  (composeArgs t).map (fun a => (a.DstPolyEpochStartHeight, a.DstPolyKeepers))

end Eth

/-! ## `relayer/neo/neo.go` -/

namespace Neo

/-- Go `VERIFY_AND_EXECUTE_TX`. -/
def VERIFY_AND_EXECUTE_TX : String := "VerifyAndExecuteTx"

/-- Calls of the neo Submitter that leave the process. -/
inductive Event where
  | GetPolyEpochHeight (ccm : String) (polyId : Nat)
  | compose (m : Tx)
  | Invoke (script : Bytes)
  | Pop
  | Push (tx : Tx)
  | Sleep
  deriving DecidableEq, Repr

/-- Whether an event is the wallet broadcast (`wallet.Invoke`). -/
def Event.isBroadcast : Event → Bool
  | .Invoke _ => true
  | _ => false

/-- The collaborators of the neo Submitter that are outside the shown sources:
the node, `helper.HexToBytes`, the script builder of `sc`, the wallet, the
cancellation signal and the faults of the bus. -/
structure Chain (σ : Type) where
  GetPolyEpochHeight : String → Nat → σ → (Nat × Option GoError) × σ
  HexToBytes : String → Bytes
  MakeInvocationScript : Bytes → String → List Bytes → Bytes
  Invoke : Bytes → σ → (String × Option GoError) × σ
  Done : σ → Bool
  PopFault : σ → Option GoError × σ

/-- The part of `config.SubmitterConfig` the Submitter reads after `Init`. -/
structure SubmitterConfig where
  ChainId : Nat
  deriving DecidableEq, Repr

/-- The neo `Submitter` after `Init`. -/
structure Submitter where
  config : SubmitterConfig
  name : String
  ccd : String
  ccm : String
  polyId : Nat
  hasWallet : Bool
  deriving DecidableEq, Repr

/-- What a call on a message leaves behind. -/
structure Result (σ : Type) where
  out : Outcome
  tx : Tx
  world : σ
  trace : List Event

/-- Go `Submitter.processPolyTx`. -/
def processPolyTx {σ : Type} (s : Submitter) (c : Chain σ) (tx : Tx) (w : σ) : Result σ :=
  match DecodeString tx.AnchorProof with
  | Except.error _ =>
    ⟨Outcome.err (GoError.errorf "%s processPolyTx decode anchor proof hex error %v"), tx, w, []⟩
  | Except.ok proof =>
    match DecodeString tx.AuditPath with
    | Except.error e => ⟨Outcome.err e, tx, w, []⟩
    | Except.ok path =>
      let scriptHash := c.HexToBytes s.ccm
      match tx.PolyHeader, tx.AnchorHeader with
      | some header, some anchor =>
        let args := [path, header.message, proof, anchor.message, tx.PolySigs]
        let script := c.MakeInvocationScript scriptHash VERIFY_AND_EXECUTE_TX args
        if s.hasWallet = false then ⟨Outcome.panic, tx, w, []⟩
        else
          match c.Invoke script w with
          | ((hash, e), w1) =>
            ⟨(match e with | none => Outcome.ok | some e => Outcome.err e),
             { tx with DstHash := hash }, w1, [Event.Invoke script]⟩
      | _, _ => ⟨Outcome.panic, tx, w, []⟩

/-- Go `Submitter.ProcessTx`; `uint32(h)` keeps the low 32 bits. -/
def ProcessTx {σ : Type} (s : Submitter) (c : Chain σ) (m : Tx) (compose : PolyComposer σ)
    (w : σ) : Result σ :=
  if m.Type ≠ TxType.POLY then
    ⟨Outcome.err (GoError.errorf "%s desired message is not poly tx %v"), m, w, []⟩
  else if m.DstChainId ≠ s.config.ChainId then
    ⟨Outcome.err (GoError.errorf "%s message dst chain does not match %v"), m, w, []⟩
  else
    let t1 := [Event.GetPolyEpochHeight s.ccm s.polyId]
    match c.GetPolyEpochHeight s.ccm s.polyId w with
    | ((_, some _), w1) =>
      ⟨Outcome.err (GoError.errorf "%s fetch dst chain poly epoch height error %v"), m, w1, t1⟩
    | ((h, none), w1) =>
      let m1 := { m with DstPolyEpochStartHeight := h % 4294967296 }
      match compose m1 w1 with
      | ((m2, some e), w2) => ⟨Outcome.err e, m2, w2, t1 ++ [Event.compose m1]⟩
      | ((m2, none), w2) =>
        let r := processPolyTx s c m2 w2
        { r with trace := t1 ++ [Event.compose m1] ++ r.trace }

/-- The state of one worker loop between iterations, as for the eth
Submitter. -/
structure LoopState (σ : Type) where
  bus : List Tx
  world : σ
  trace : List Event
  exited : Option Outcome

/-- One iteration of the `for` loop of Go `Submitter.run`. -/
def runStep {σ : Type} (s : Submitter) (c : Chain σ) (compose : PolyComposer σ)
    (st : LoopState σ) : LoopState σ :=
  match st.exited with
  | some _ => st
  | none =>
    if c.Done st.world = true then { st with exited := some Outcome.ok }
    else
      match c.PopFault st.world with
      | (some _, w1) => { st with world := w1, trace := st.trace ++ [Event.Pop] }
      | (none, w1) =>
        match st.bus with
        | [] => { st with world := w1, trace := st.trace ++ [Event.Pop, Event.Sleep] }
        | tx :: rest =>
          let r := ProcessTx s c tx compose w1
          match r.out with
          | Outcome.ok =>
            { bus := rest, world := r.world, trace := st.trace ++ [Event.Pop] ++ r.trace,
              exited := none }
          | Outcome.panic =>
            { bus := rest, world := r.world, trace := st.trace ++ [Event.Pop] ++ r.trace,
              exited := some Outcome.panic }
          | Outcome.err e =>
            if e.is ERR_INVALID_TX = true then
              { bus := rest, world := r.world, trace := st.trace ++ [Event.Pop] ++ r.trace,
                exited := none }
            else
              let tx1 := { r.tx with Attempts := incInt r.tx.Attempts }
              { bus := rest ++ [tx1], world := r.world,
                trace := st.trace ++ [Event.Pop] ++ r.trace ++ [Event.Push tx1],
                exited := none }

/-- Go `Submitter.run`, for a given number of iterations of its loop. -/
def run {σ : Type} (s : Submitter) (c : Chain σ) (compose : PolyComposer σ) :
    Nat → LoopState σ → LoopState σ
  | 0, st => st
  | n + 1, st => run s c compose n (runStep s c compose st)

/-- A sample world for the neo Submitter: the epoch height the destination
chain records, and the `(SrcChainId, TxId)` pairs it has already relayed. -/
structure SampleWorld where
  epoch : Nat
  relayed : List (Nat × String)
  deriving DecidableEq, Repr

/-- A sample node and wallet over `SampleWorld`: the epoch query answers from
the world and `wallet.Invoke` returns the hash `"0x4e0"`. -/
def sampleChain : Chain SampleWorld where
  GetPolyEpochHeight := fun _ _ w => ((w.epoch, none), w)
  HexToBytes := fun t =>
    match DecodeString t with
    | Except.ok b => b
    | Except.error _ => []
  MakeInvocationScript := fun scriptHash method args =>
    scriptHash ++ method.toList.map Char.toNat ++ args.foldr (fun a b => a ++ b) []
  Invoke := fun _ w => (("0x4e0", none), w)
  Done := fun _ => false
  PopFault := fun w => (none, w)

/-- A sample node that is down: the epoch query fails. -/
def downChain : Chain SampleWorld where
  GetPolyEpochHeight := fun _ _ w => ((0, some (GoError.errorf "dial tcp: connection refused")), w)
  HexToBytes := sampleChain.HexToBytes
  MakeInvocationScript := sampleChain.MakeInvocationScript
  Invoke := fun _ w => (("", some (GoError.errorf "dial tcp: connection refused")), w)
  Done := fun _ => false
  PopFault := fun w => (none, w)

/-- A sample compose callback: it attaches a header, an anchor header, an
empty anchor proof and an audit path, and succeeds. -/
def sampleCompose : PolyComposer SampleWorld := fun m w =>
  (({ m with PolyHeader := some ⟨[1, 2]⟩, AnchorHeader := some ⟨[3]⟩, AnchorProof := "",
             AuditPath := "0a0b", PolySigs := [7] }, none), w)

/-- A sample neo Submitter, configured for chain 4. -/
def sampleSubmitter : Submitter :=
  { config := ⟨4⟩, name := "neo", ccd := "", ccm := "cc", polyId := 1, hasWallet := true }

/-- Whether, from this state on, the loop pops the only message on the bus and
`ProcessTx` fails on it with an error that is not `ERR_INVALID_TX`, `n`
iterations in a row. -/
def failsInARow {σ : Type} (s : Submitter) (c : Chain σ) (compose : PolyComposer σ) :
    Nat → LoopState σ → Bool
  | 0, _ => true
  | n + 1, st =>
    st.exited.isNone && !c.Done st.world && (c.PopFault st.world).1.isNone &&
    (match st.bus with
     | [tx] =>
       match (ProcessTx s c tx compose (c.PopFault st.world).2).out with
       | Outcome.err e => !e.is ERR_INVALID_TX
       | _ => false
     | _ => false) &&
    failsInARow s c compose n (runStep s c compose st)

/-- Follow the message at position `i` of the bus through `n` iterations of
the loop, as for the eth Submitter: `some (k, j)` when the loop makes the `n`
iterations without ending before one of them, the followed message is popped
`k` times, `ProcessTx` fails on it each time with an error that is not
`ERR_INVALID_TX`, and the message is at position `j` afterwards. -/
def follow {σ : Type} (s : Submitter) (c : Chain σ) (compose : PolyComposer σ) :
    Nat → LoopState σ → Nat → Option (Nat × Nat)
  | 0, _, i => some (0, i)
  | n + 1, st, i =>
    if st.exited.isSome = true then none
    else if c.Done st.world = true then none
    else
      match (c.PopFault st.world).1 with
      | some _ => follow s c compose n (runStep s c compose st) i
      | none =>
        match i, st.bus with
        | 0, tx :: rest =>
          match (ProcessTx s c tx compose (c.PopFault st.world).2).out with
          | Outcome.err e =>
            if e.is ERR_INVALID_TX = true then none
            else
              (follow s c compose n (runStep s c compose st) rest.length).map
                (fun r => (r.1 + 1, r.2))
          | _ => none
        | j + 1, _ :: _ => follow s c compose n (runStep s c compose st) j
        | _, [] => none

end Neo

/-! ## `relayer/ok/listener.go` -/

namespace Ok

/-- Go `uint64(x)` of an `int64`: the value modulo `2^64`. -/
def uint64 (x : Int) : Nat := (x % 18446744073709551616).toNat

/-- The part of `cosmos.CosmosEpochSwitchInfo` the Listener reads: the height
(an `int64`) where the validator set last changed. -/
structure CosmosEpochSwitchInfo where
  Height : Int
  deriving DecidableEq, Repr

/-- Calls of the ok Listener that leave the process. -/
inductive Event where
  | GetSideChainEpoch (chainId : Nat)
  | GetProof (txId : Bytes) (height : Nat)
  | QueryCommitResult (height : Int)
  | GetValidators (height : Nat)
  deriving DecidableEq, Repr

/-- The collaborators of the ok Listener that are outside the shown sources:
the relay-chain node, the two deserializers, and `GetProof` of the embedded
eth Listener. -/
structure Chain (σ : Type) where
  GetSideChainEpoch : Nat → σ → (Bytes × Option GoError) × σ
  EpochDeserialization : Bytes → Except GoError CosmosEpochSwitchInfo
  ParamDeserialization : Bytes → Except GoError MakeTxParam
  GetProof : Bytes → Nat → σ → ((Nat × Bytes) × Option GoError) × σ

/-- The ok `Listener`: whether its relay-chain SDK handle is set (`l.Poly()`
is not nil) and its chain id (`l.ChainId()`). -/
structure Listener where
  hasPoly : Bool
  chainId : Nat
  deriving DecidableEq, Repr

/-- What `LastHeaderSync` leaves behind: its two results, the world and the
calls it made. -/
structure SyncResult (σ : Type) where
  height : Nat
  err : Option GoError
  world : σ
  trace : List Event

/-- Go `Listener.LastHeaderSync`. -/
def LastHeaderSync {σ : Type} (l : Listener) (c : Chain σ) (force last : Nat) (w : σ) :
    SyncResult σ :=
  if l.hasPoly = false then
    ⟨0, some (GoError.errorf "No poly sdk provided for listener"), w, []⟩
  else if force ≠ 0 then ⟨force, none, w, []⟩
  else
    match c.GetSideChainEpoch l.chainId w with
    | ((_, some e), w1) => ⟨0, some e, w1, [Event.GetSideChainEpoch l.chainId]⟩
    | ((epoch, none), w1) =>
      match c.EpochDeserialization epoch with
      | Except.error e => ⟨0, some e, w1, [Event.GetSideChainEpoch l.chainId]⟩
      | Except.ok info =>
        let height := uint64 info.Height
        ⟨(if last > height then last else height), none, w1, [Event.GetSideChainEpoch l.chainId]⟩

/-- What `Compose` leaves behind. -/
structure ComposeResult (σ : Type) where
  err : Option GoError
  tx : Tx
  world : σ
  trace : List Event

/-- Go `Listener.Compose`; `len` of a string is zero exactly when the string is
empty. -/
def Compose {σ : Type} (c : Chain σ) (tx : Tx) (w : σ) : ComposeResult σ :=
  if tx.SrcHeight = 0 ∨ tx.TxId = "" then
    ⟨some (GoError.errorf "tx missing attributes src height %v, txid %s"), tx, w, []⟩
  else if tx.SrcParam = "" then ⟨some (GoError.errorf "src param is missing"), tx, w, []⟩
  else
    match DecodeString tx.SrcParam with
    | Except.error _ =>
      ⟨some (GoError.errorf "%v submitter decode src param error %v event %s"), tx, w, []⟩
    | Except.ok event =>
      match DecodeString tx.TxId with
      | Except.error _ =>
        ⟨some (GoError.errorf "%v failed to decode src txid %s, err %v"), tx, w, []⟩
      | Except.ok txId =>
        match c.ParamDeserialization event with
        | Except.error e => ⟨some e, tx, w, []⟩
        | Except.ok param =>
          match c.GetProof txId tx.SrcHeight w with
          | (((height, proof), e), w1) =>
            ⟨e, { tx with Param := some param, SrcEvent := event, SrcProofHeight := height,
                          SrcProof := proof }, w1, [Event.GetProof txId tx.SrcHeight]⟩

/-- A sample world for the ok Listener: the epoch bytes the relay chain
records for each chain id. -/
structure SampleWorld where
  epoch : Bytes
  deriving DecidableEq, Repr

/-- A sample relay chain over `SampleWorld`: the epoch query returns the
recorded bytes, an epoch of one byte deserializes to that height, an event of
three bytes deserializes to a parameter, and the proof of a transaction is
its id at the next height. -/
def sampleChain : Chain SampleWorld where
  GetSideChainEpoch := fun _ w => ((w.epoch, none), w)
  EpochDeserialization := fun b =>
    match b with
    | [h] => Except.ok ⟨h⟩
    | _ => Except.error (GoError.errorf "read height failed")
  ParamDeserialization := fun b =>
    match b with
    | [a, x, y] => Except.ok ⟨a, [x], [y]⟩
    | _ => Except.error (GoError.errorf "MakeTxParam deserialize error")
  GetProof := fun txId height w => (((height + 1, txId), none), w)

/-- Go `int64(x)` of a `uint64`: the value modulo `2^64`, read as a signed
64-bit number. -/
def int64 (x : Nat) : Int :=
  if x % 18446744073709551616 < 9223372036854775808 then ((x % 18446744073709551616 : Nat) : Int)
  else ((x % 18446744073709551616 : Nat) : Int) - 18446744073709551616

/-- The part of a Tendermint block header (`types.Header`) that `Header`
reads, and the rest of it as bytes. -/
structure BlockHeader where
  ValidatorsHash : Bytes
  NextValidatorsHash : Bytes
  rest : Bytes
  deriving DecidableEq, Repr

/-- The result of the commit query: a block header and its commit. -/
structure CommitResult where
  Header : BlockHeader
  Commit : Bytes
  deriving DecidableEq, Repr

/-- Go `cosmos.CosmosHeader`: the structure `Header` encodes. -/
structure CosmosHeader where
  Header : BlockHeader
  Commit : Bytes
  Valsets : List Bytes
  deriving DecidableEq, Repr

/-- The collaborators of `Listener.Header` that are outside the shown sources,
for a listener whose `tm` and `codec` are set: the commit query and the
validator query of the Tendermint node, and the codec. -/
structure Tendermint (σ : Type) where
  QueryCommitResult : Int → σ → Except GoError CommitResult × σ
  GetValidators : Nat → σ → Except GoError (List Bytes) × σ
  MarshalBinaryBare : CosmosHeader → Bytes × Option GoError

/-- What `Header` leaves behind: its three results, the world and the calls
it made. -/
structure HeaderResult (σ : Type) where
  header : Bytes
  hash : Bytes
  err : Option GoError
  world : σ
  trace : List Event

/-- Go `Listener.Header`; `bytes.Equal` is equality of the byte lists. -/
def Header {σ : Type} (t : Tendermint σ) (height : Nat) (w : σ) : HeaderResult σ :=
  match t.QueryCommitResult (int64 height) w with
  | (Except.error _, w1) =>
    ⟨[], [], some (GoError.errorf "OKex query commit result height %d error %v"), w1,
     [Event.QueryCommitResult (int64 height)]⟩
  | (Except.ok cr, w1) =>
    if cr.Header.ValidatorsHash ≠ cr.Header.NextValidatorsHash then
      match t.GetValidators height w1 with
      | (Except.error _, w2) =>
        ⟨[], [], some (GoError.errorf "OKex get validators height %d error %v"), w2,
         [Event.QueryCommitResult (int64 height), Event.GetValidators height]⟩
      | (Except.ok vs, w2) =>
        let hdr : CosmosHeader := { Header := cr.Header, Commit := cr.Commit, Valsets := vs }
        match t.MarshalBinaryBare hdr with
        | (header, some _) =>
          ⟨header, [], some (GoError.errorf "OKex header marshal binary height %d, err %v"), w2,
           [Event.QueryCommitResult (int64 height), Event.GetValidators height]⟩
        | (header, none) =>
          ⟨header, [], none, w2,
           [Event.QueryCommitResult (int64 height), Event.GetValidators height]⟩
    else ⟨[], [], none, w1, [Event.QueryCommitResult (int64 height)]⟩

/-- A sample commit query: the validator set changes every ten blocks, so the
two hashes of a header differ exactly at the heights that end in 9. -/
def sampleQueryCommitResult (height : Int) (w : SampleWorld) :
    Except GoError CommitResult × SampleWorld :=
  (Except.ok ⟨⟨[height.toNat / 10], [(height.toNat + 1) / 10], [height.toNat]⟩, [5, 5]⟩, w)

/-- A sample validator query: two validators, named after the height. -/
def sampleGetValidators (height : Nat) (w : SampleWorld) :
    Except GoError (List Bytes) × SampleWorld :=
  (Except.ok [[height, 1], [height, 2]], w)

/-- A sample codec: the fields of the structure, one after the other. -/
def sampleMarshalBinaryBare (hdr : CosmosHeader) : Bytes × Option GoError :=
  (hdr.Header.ValidatorsHash ++ hdr.Header.NextValidatorsHash ++ hdr.Header.rest ++ hdr.Commit ++
    hdr.Valsets.foldr (fun a b => a ++ b) [], none)

/-- The sample Tendermint node and codec. -/
def sampleTendermint : Tendermint SampleWorld :=
  { QueryCommitResult := sampleQueryCommitResult, GetValidators := sampleGetValidators,
    MarshalBinaryBare := sampleMarshalBinaryBare }

end Ok

/-! ## `relayer/run.go` -/

namespace Relayer

/-- The five kinds of handler configuration `parseHandler` switches on. -/
inductive HandlerKind where
  | HeaderSync
  | SrcTxSync
  | SrcTxCommit
  | PolyTxSync
  | PolyTxCommit
  deriving DecidableEq, Repr

/-- A handler configuration (`*config.HeaderSyncConfig` and its four
siblings): the `Enabled` flag `parseHandler` reads, and the chain. -/
structure RoleConfig where
  Enabled : Bool
  ChainId : Nat
  deriving DecidableEq, Repr

/-- A `Handler`, as made by `NewHeaderSyncHandler` and its four siblings from
its configuration. -/
structure Handler where
  kind : HandlerKind
  conf : RoleConfig
  deriving DecidableEq, Repr

/-- The part of `config.PolyChainConfig` that `Server.Start` reads. -/
structure PolyConfig where
  PolyTxSync : Option RoleConfig
  deriving DecidableEq, Repr

/-- The part of `config.ChainConfig` that `Server.Start` reads. -/
structure ChainConfig where
  HeaderSync : Option RoleConfig
  SrcTxSync : Option RoleConfig
  SrcTxCommit : Option RoleConfig
  PolyTxCommit : Option RoleConfig
  deriving DecidableEq, Repr

/-- The part of `config.Config` that `Server.Start` reads; `Chains` lists the
chain configurations in the order the `range` loop visits them. -/
structure Config where
  Poly : Option PolyConfig
  Chains : List ChainConfig
  deriving DecidableEq, Repr

/-- Go `Server`. -/
structure Server where
  config : Config
  roles : List Handler
  deriving DecidableEq, Repr

/-- Calls on handlers, as recorded in the trace. -/
inductive Event where
  | Init (h : Handler)
  | Start (h : Handler)
  deriving DecidableEq, Repr

/-- The methods `Init` and `Start` of the handlers, which are outside the
shown sources. -/
structure Ops (σ : Type) where
  Init : Handler → σ → Option GoError × σ
  Start : Handler → σ → Option GoError × σ

/-- Go `Server.parseHandler`, on a configuration of a known kind: nil or not
enabled gives no handler. -/
def parseHandler (conf : HandlerKind × Option RoleConfig) : Option Handler :=
  match conf.2 with
  | none => none
  | some c => if c.Enabled = false then none else some ⟨conf.1, c⟩

/-- Go `Server.parseHandlers`: the roles after appending the handler of each
configuration that has one. -/
def parseHandlers (roles : List Handler) : List (HandlerKind × Option RoleConfig) → List Handler
  | [] => roles
  | conf :: confs =>
    match parseHandler conf with
    | some handler => parseHandlers (roles ++ [handler]) confs
    | none => parseHandlers roles confs

/-- The first two blocks of Go `Server.Start`: the roles after the poly
handler and the handlers of every chain are parsed. -/
def Server.parse (s : Server) : List Handler :=
  let roles0 := match s.config.Poly with
    | some p => parseHandlers s.roles [(HandlerKind.PolyTxSync, p.PolyTxSync)]
    | none => s.roles
  s.config.Chains.foldl
    (fun roles chain => parseHandlers roles
      [(HandlerKind.HeaderSync, chain.HeaderSync), (HandlerKind.SrcTxSync, chain.SrcTxSync),
       (HandlerKind.SrcTxCommit, chain.SrcTxCommit), (HandlerKind.PolyTxCommit, chain.PolyTxCommit)])
    roles0

/-- What a loop over the roles leaves behind: the error it returned (if any),
the world and the calls it made. -/
structure LoopResult (σ : Type) where
  err : Option GoError
  world : σ
  trace : List Event

/-- The `Initialize` loop of Go `Server.Start`. -/
def initLoop {σ : Type} (ops : Ops σ) : List Handler → σ → LoopResult σ
  | [], w => ⟨none, w, []⟩
  | handler :: rest, w =>
    match ops.Init handler w with
    | (some e, w1) => ⟨some e, w1, [Event.Init handler]⟩
    | (none, w1) =>
      let r := initLoop ops rest w1
      { r with trace := Event.Init handler :: r.trace }

/-- The `Start the roles` loop of Go `Server.Start`. -/
def startLoop {σ : Type} (ops : Ops σ) : List Handler → σ → LoopResult σ
  | [], w => ⟨none, w, []⟩
  | handler :: rest, w =>
    match ops.Start handler w with
    | (some e, w1) => ⟨some e, w1, [Event.Start handler]⟩
    | (none, w1) =>
      let r := startLoop ops rest w1
      { r with trace := Event.Start handler :: r.trace }

/-- Go `Server.Start`: the server after the call (its roles are the parsed
ones) and what the two loops left behind. -/
def Server.Start {σ : Type} (s : Server) (ops : Ops σ) (w : σ) : Server × LoopResult σ :=
  let roles := s.parse
  let r1 := initLoop ops roles w
  match r1.err with
  | some _ => ({ s with roles := roles }, r1)
  | none =>
    let r2 := startLoop ops roles r1.world
    ({ s with roles := roles }, { r2 with trace := r1.trace ++ r2.trace })

/-- A sample `Init` over a world that counts the calls made: it fails on
chain 13. -/
def sampleInit (handler : Handler) (w : Nat) : Option GoError × Nat :=
  ((if handler.conf.ChainId = 13 then some (GoError.errorf "init failed") else none), w + 1)

/-- A sample `Start` over a world that counts the calls made: it fails on
chain 17. -/
def sampleStart (handler : Handler) (w : Nat) : Option GoError × Nat :=
  ((if handler.conf.ChainId = 17 then some (GoError.errorf "start failed") else none), w + 1)

/-- The sample handler methods. -/
def sampleOps : Ops Nat := { Init := sampleInit, Start := sampleStart }

/-- A sample server: poly transaction sync is enabled, and one chain of id
`chain` has header sync enabled, source transaction sync disabled, no source
commit configuration, and poly commit enabled. -/
def sampleServer (chain : Nat) : Server :=
  { config :=
      { Poly := some ⟨some ⟨true, 0⟩⟩,
        Chains := [⟨some ⟨true, chain⟩, some ⟨false, chain⟩, none, some ⟨true, chain⟩⟩] },
    roles := [] }

end Relayer

/-! ## Theorems: the eth Submitter -/

namespace Eth

theorem composeArgs_append (a b : List Event) :
    composeArgs (a ++ b) = composeArgs a ++ composeArgs b := by
  induction a with
  | nil => rfl
  | cons x xs ih => cases x <;> simp [composeArgs, ih]

theorem composeArgs_GetPolyEpochStartHeight {σ : Type} (c : Chain σ) (w : σ) :
    composeArgs (GetPolyEpochStartHeight c w).2.2 = [] := by
  unfold GetPolyEpochStartHeight
  split <;> simp [composeArgs]

theorem composeArgs_GetPolyKeepers {σ : Type} (c : Chain σ) (w : σ) :
    composeArgs (GetPolyKeepers c w).2.2 = [] := by
  unfold GetPolyKeepers
  split <;> simp [composeArgs]

theorem composeArgs_submit {σ : Type} (s : Submitter) (c : Chain σ) (tx : Tx) (w : σ) :
    composeArgs (submit s c tx w).trace = [] := by
  unfold submit
  repeat' split
  all_goals simp [composeArgs]

theorem composeArgs_processPolyTx {σ : Type} (s : Submitter) (c : Chain σ) (tx : Tx) (w : σ) :
    composeArgs (processPolyTx s c tx w).trace = [] := by
  unfold processPolyTx
  repeat' split
  all_goals first
    | (simp [composeArgs, composeArgs_append, composeArgs_submit]; done)
    | (dsimp only; split <;> simp [composeArgs, composeArgs_append, composeArgs_submit])

/-- C1: for every Tx `m` whose `DstChainId` differs from the chain id the eth
Submitter is configured with, `ProcessTx` returns an error and makes no call
at all (its trace is empty: no epoch or keeper query, no compose, no
`wallet.Send` and no `wallet.SendWithAccount`), and the message and the world
are left as they were. -/
theorem ProcessTx_dst_chain_mismatch {σ : Type} (s : Submitter) (c : Chain σ) (m : Tx)
    (compose : PolyComposer σ) (w : σ) (hdst : m.DstChainId ≠ s.config.ChainId) :
    (∃ e, (ProcessTx s c m compose w).out = Outcome.err e) ∧
    (ProcessTx s c m compose w).trace = [] ∧
    (ProcessTx s c m compose w).tx = m ∧
    (ProcessTx s c m compose w).world = w := by
  unfold ProcessTx
  by_cases hty : m.Type ≠ TxType.POLY
  · simp [hty]
  · simp [hty, hdst]

/-- Witness of C1: a POLY message for chain 2 on the sample Submitter of
chain 6. -/
theorem ProcessTx_dst_chain_mismatch_witness :
    (2 : Nat) ≠ 6 ∧
    (∃ e, (ProcessTx sampleSubmitter sampleChain { Tx.zero with DstChainId := 2 } sampleCompose
            ⟨10, [1], []⟩).out = Outcome.err e) ∧
    (ProcessTx sampleSubmitter sampleChain { Tx.zero with DstChainId := 2 } sampleCompose
      ⟨10, [1], []⟩).trace = [] ∧
    (ProcessTx sampleSubmitter sampleChain { Tx.zero with DstChainId := 2 } sampleCompose
      ⟨10, [1], []⟩).tx = { Tx.zero with DstChainId := 2 } ∧
    (ProcessTx sampleSubmitter sampleChain { Tx.zero with DstChainId := 2 } sampleCompose
      ⟨10, [1], []⟩).world = ⟨10, [1], []⟩ :=
  ⟨by decide,
   ProcessTx_dst_chain_mismatch sampleSubmitter sampleChain { Tx.zero with DstChainId := 2 }
     sampleCompose ⟨10, [1], []⟩ (by decide)⟩

/-- C2, the code at the failing input: the sample Submitter of chain 6 pops a
POLY message for chain 2.  The error `ProcessTx` returns is not
`ERR_INVALID_TX` (`errors.Is` is false), and after the iteration the message
is back on the bus with `Attempts` raised from 0 to 1. -/
theorem runStep_dst_chain_mismatch_requeued :
    (∃ e, (ProcessTx sampleSubmitter sampleChain
            { Tx.zero with DstChainId := 2, DstSender := some sampleAccount } sampleCompose
            ⟨10, [1], []⟩).out = Outcome.err e ∧ e.is ERR_INVALID_TX = false) ∧
    (runStep sampleSubmitter sampleChain sampleAccount sampleCompose
      ⟨[{ Tx.zero with DstChainId := 2 }], ⟨10, [1], []⟩, [], none⟩).bus =
      [{ Tx.zero with DstChainId := 2, DstSender := some sampleAccount, Attempts := 1 }] := by
  refine ⟨⟨GoError.errorf "%s message dst chain does not match %v", ?_, ?_⟩, ?_⟩
  · decide
  · decide
  · decide

/-- C3: for every POLY Tx whose `DstChainId` matches the Submitter, when the
epoch query, the keeper query and compose succeed, `GetTxId` decodes, and the
node's `CheckIfFromChainTxExist(SrcChainId, txId)` reports true, `ProcessTx`
returns nil, no call in its trace is `wallet.Send` or `wallet.SendWithAccount`,
and the message is exactly the one compose left (`m3`): `ProcessTx` itself
writes neither `DstData` nor `DstHash`. -/
theorem ProcessTx_already_relayed {σ : Type} (s : Submitter) (c : Chain σ) (m : Tx)
    (compose : PolyComposer σ) (w w1 w2 w3 w4 w5 : σ) (h : Nat) (k txId : Bytes)
    (t1 t2 : List Event) (m3 : Tx)
    (hty : m.Type = TxType.POLY) (hdst : m.DstChainId = s.config.ChainId)
    (hq1 : GetPolyEpochStartHeight c w = ((h, none), w1, t1))
    (hq2 : GetPolyKeepers c w1 = ((k, none), w2, t2))
    (hc : compose { m with DstPolyEpochStartHeight := h, DstPolyKeepers := k } w2 =
      ((m3, none), w3))
    (hid : c.GetTxId m3 = (txId, none))
    (hccd : c.NewEthCrossChainData w3 = (none, w4))
    (hex : c.CheckIfFromChainTxExist m3.SrcChainId txId w4 = ((true, none), w5)) :
    (ProcessTx s c m compose w).out = Outcome.ok ∧
    (∀ ev ∈ (ProcessTx s c m compose w).trace, ev.isBroadcast = false) ∧
    (ProcessTx s c m compose w).tx = m3 ∧
    (ProcessTx s c m compose w).tx.DstData = m3.DstData ∧
    (ProcessTx s c m compose w).tx.DstHash = m3.DstHash := by
  have hr : ProcessTx s c m compose w =
      ⟨Outcome.ok, m3, w5,
       t1 ++ t2 ++ [Event.compose { m with DstPolyEpochStartHeight := h, DstPolyKeepers := k }] ++
         [Event.NewEthCrossChainData, Event.CheckIfFromChainTxExist m3.SrcChainId txId]⟩ := by
    simp [ProcessTx, hty, hdst.symm, hq1, hq2, hc, processPolyTx, hid, hccd, hex]
  have ht1 : ∀ ev ∈ t1, ev.isBroadcast = false := by
    intro ev hev
    unfold GetPolyEpochStartHeight at hq1
    split at hq1
    · simp at hq1
    · simp at hq1
      obtain ⟨-, -, rfl⟩ := hq1
      simp at hev
      rcases hev with rfl | rfl <;> rfl
  have ht2 : ∀ ev ∈ t2, ev.isBroadcast = false := by
    intro ev hev
    unfold GetPolyKeepers at hq2
    split at hq2
    · simp at hq2
    · simp at hq2
      obtain ⟨-, -, rfl⟩ := hq2
      simp at hev
      rcases hev with rfl | rfl <;> rfl
  rw [hr]
  refine ⟨rfl, ?_, rfl, rfl, rfl⟩
  intro ev hev
  simp only [List.mem_append, List.mem_cons, List.mem_singleton, List.not_mem_nil, or_false] at hev
  rcases hev with ((hev | hev) | rfl) | rfl | rfl
  · exact ht1 ev hev
  · exact ht2 ev hev
  · rfl
  · rfl
  · rfl

/-- Witness of C3: the sample node has the record `(2, 0x0abc)`; the message
has `SrcChainId = 2` and `TxId = "0abc"`. -/
theorem ProcessTx_already_relayed_witness :
    sampleChain.CheckIfFromChainTxExist 2 [10, 188] ⟨10, [1], [(2, [10, 188])]⟩ =
      ((true, none), ⟨10, [1], [(2, [10, 188])]⟩) ∧
    (ProcessTx sampleSubmitter sampleChain
      { Tx.zero with DstChainId := 6, SrcChainId := 2, TxId := "0abc" } sampleCompose
      ⟨10, [1], [(2, [10, 188])]⟩).out = Outcome.ok ∧
    (∀ ev ∈ (ProcessTx sampleSubmitter sampleChain
      { Tx.zero with DstChainId := 6, SrcChainId := 2, TxId := "0abc" } sampleCompose
      ⟨10, [1], [(2, [10, 188])]⟩).trace, ev.isBroadcast = false) :=
  have h := ProcessTx_already_relayed sampleSubmitter sampleChain
    { Tx.zero with DstChainId := 6, SrcChainId := 2, TxId := "0abc" } sampleCompose
    ⟨10, [1], [(2, [10, 188])]⟩ ⟨10, [1], [(2, [10, 188])]⟩ ⟨10, [1], [(2, [10, 188])]⟩
    ⟨10, [1], [(2, [10, 188])]⟩ ⟨10, [1], [(2, [10, 188])]⟩ ⟨10, [1], [(2, [10, 188])]⟩
    10 [1] [10, 188] [Event.NewEthCrossChainData, Event.GetCurEpochStartHeight]
    [Event.NewEthCrossChainData, Event.GetCurEpochConPubKeyBytes]
    { Tx.zero with DstChainId := 6, SrcChainId := 2, TxId := "0abc", DstPolyEpochStartHeight := 10,
                   DstPolyKeepers := [1], PolyHeader := some ⟨[1, 2]⟩, AnchorProof := "",
                   AuditPath := "0a0b", PolySigs := [7] }
    rfl rfl rfl rfl rfl (by decide) rfl (by decide)
  ⟨by decide, h.1, h.2.1⟩

theorem ProcessTx_composeArgs {σ : Type} (s : Submitter) (c : Chain σ) (m : Tx)
    (compose : PolyComposer σ) (w : σ)
    (hty : m.Type = TxType.POLY) (hdst : m.DstChainId = s.config.ChainId) :
    composeArgs (ProcessTx s c m compose w).trace =
      (epochAnswers c w).toList.map
        (fun a => { m with DstPolyEpochStartHeight := a.1, DstPolyKeepers := a.2 }) := by
  rcases h1 : c.NewEthCrossChainData w with ⟨e1, w1⟩
  cases e1 with
  | some e =>
    simp [ProcessTx, GetPolyEpochStartHeight, hty, hdst.symm, h1, epochAnswers, composeArgs]
  | none =>
    rcases h2 : c.GetCurEpochStartHeight w1 with ⟨⟨h, herr⟩, w2⟩
    cases herr with
    | some e =>
      simp [ProcessTx, GetPolyEpochStartHeight, hty, hdst.symm, h1, h2, epochAnswers, composeArgs]
    | none =>
      rcases h3 : c.NewEthCrossChainData w2 with ⟨e3, w3⟩
      cases e3 with
      | some e =>
        simp [ProcessTx, GetPolyEpochStartHeight, GetPolyKeepers, hty, hdst.symm, h1, h2, h3,
          epochAnswers, composeArgs]
      | none =>
        rcases h4 : c.GetCurEpochConPubKeyBytes w3 with ⟨⟨k, kerr⟩, w4⟩
        cases kerr with
        | some e =>
          simp [ProcessTx, GetPolyEpochStartHeight, GetPolyKeepers, hty, hdst.symm, h1, h2, h3, h4,
            epochAnswers, composeArgs]
        | none =>
          rcases hc : compose { m with DstPolyEpochStartHeight := h, DstPolyKeepers := k } w4 with
            ⟨⟨m3, e⟩, w5⟩
          cases e <;>
            simp [ProcessTx, GetPolyEpochStartHeight, GetPolyKeepers, hty, hdst.symm, h1, h2, h3,
              h4, hc, epochAnswers, composeArgs, composeArgs_append, composeArgs_processPolyTx]

theorem ProcessTx_attached {σ : Type} (s : Submitter) (c : Chain σ) (m : Tx)
    (compose : PolyComposer σ) (w : σ)
    (hty : m.Type = TxType.POLY) (hdst : m.DstChainId = s.config.ChainId) :
    attached (ProcessTx s c m compose w).trace = (epochAnswers c w).toList := by
  unfold attached
  rw [ProcessTx_composeArgs s c m compose w hty hdst]
  cases epochAnswers c w <;> simp

theorem epochAnswers_of_queries {σ : Type} (c : Chain σ) (w w1 w2 w3 w4 : σ) (h : Nat)
    (k : Bytes)
    (h1 : c.NewEthCrossChainData w = (none, w1))
    (h2 : c.GetCurEpochStartHeight w1 = ((h, none), w2))
    (h3 : c.NewEthCrossChainData w2 = (none, w3))
    (h4 : c.GetCurEpochConPubKeyBytes w3 = ((k, none), w4)) :
    epochAnswers c w = some (h, k) := by
  simp [epochAnswers, h1, h2, h3, h4]

/-- C5: epoch freshness of the eth `ProcessTx`, for every Tx `m` that passes
the type and chain guards.  (1) When the node's calls of this attempt succeed
(binding, `GetCurEpochStartHeight` returning `h`, binding,
`GetCurEpochConPubKeyBytes` returning `k`, each in the world the previous
call left), the calls made are exactly these four followed by compose, which
is invoked once, on `m` with `DstPolyEpochStartHeight = h` and
`DstPolyKeepers = k`; the whole result is independent of the two values `m`
carried on entry; and for any second attempt whose node calls return `h2` and
`k2`, the attached values of the two attempts differ if and only if `h ≠ h2`
or `k ≠ k2`.  (2) In every case the messages compose is invoked on, and the
values attached, are given by the node's answers (`epochAnswers`, none when a
call fails), and two attempts attach different values if and only if their
answers differ.  (3) On the failure paths compose is not invoked and each
field holds the value returned by the query made for it: the height field is
0 when the first binding fails and the returned value when the height query
fails (the keeper query is then not made and the keeper field is left), and
the keeper field is empty when the second binding fails and the returned value
when the keeper query fails. -/
theorem ProcessTx_epoch_fresh {σ : Type} (s : Submitter) (c : Chain σ) (m : Tx)
    (compose : PolyComposer σ) (w : σ)
    (hty : m.Type = TxType.POLY) (hdst : m.DstChainId = s.config.ChainId) :
    (∀ (w1 w2 w3 w4 : σ) (h : Nat) (k : Bytes),
      c.NewEthCrossChainData w = (none, w1) →
      c.GetCurEpochStartHeight w1 = ((h, none), w2) →
      c.NewEthCrossChainData w2 = (none, w3) →
      c.GetCurEpochConPubKeyBytes w3 = ((k, none), w4) →
      composeArgs (ProcessTx s c m compose w).trace =
        [{ m with DstPolyEpochStartHeight := h, DstPolyKeepers := k }] ∧
      (∃ rest, (ProcessTx s c m compose w).trace =
        [Event.NewEthCrossChainData, Event.GetCurEpochStartHeight, Event.NewEthCrossChainData,
         Event.GetCurEpochConPubKeyBytes,
         Event.compose { m with DstPolyEpochStartHeight := h, DstPolyKeepers := k }] ++ rest) ∧
      (∀ (h0 : Nat) (k0 : Bytes),
        ProcessTx s c { m with DstPolyEpochStartHeight := h0, DstPolyKeepers := k0 } compose w =
          ProcessTx s c m compose w) ∧
      (∀ (m' : Tx) (compose' : PolyComposer σ) (v v1 v2 v3 v4 : σ) (h2 : Nat) (k2 : Bytes),
        m'.Type = TxType.POLY → m'.DstChainId = s.config.ChainId →
        c.NewEthCrossChainData v = (none, v1) →
        c.GetCurEpochStartHeight v1 = ((h2, none), v2) →
        c.NewEthCrossChainData v2 = (none, v3) →
        c.GetCurEpochConPubKeyBytes v3 = ((k2, none), v4) →
        (attached (ProcessTx s c m compose w).trace ≠
            attached (ProcessTx s c m' compose' v).trace ↔ (h ≠ h2 ∨ k ≠ k2)))) ∧
    (composeArgs (ProcessTx s c m compose w).trace =
        (epochAnswers c w).toList.map
          (fun a => { m with DstPolyEpochStartHeight := a.1, DstPolyKeepers := a.2 }) ∧
      attached (ProcessTx s c m compose w).trace = (epochAnswers c w).toList ∧
      (∀ (m' : Tx) (compose' : PolyComposer σ) (v : σ),
        m'.Type = TxType.POLY → m'.DstChainId = s.config.ChainId →
        (attached (ProcessTx s c m compose w).trace ≠
            attached (ProcessTx s c m' compose' v).trace ↔
          epochAnswers c w ≠ epochAnswers c v))) ∧
    ((∀ (e : GoError) (w1 : σ), c.NewEthCrossChainData w = (some e, w1) →
        (ProcessTx s c m compose w).tx = { m with DstPolyEpochStartHeight := 0 } ∧
        (ProcessTx s c m compose w).trace = [Event.NewEthCrossChainData]) ∧
      (∀ (e : GoError) (w1 w2 : σ) (h : Nat), c.NewEthCrossChainData w = (none, w1) →
        c.GetCurEpochStartHeight w1 = ((h, some e), w2) →
        (ProcessTx s c m compose w).tx = { m with DstPolyEpochStartHeight := h } ∧
        (ProcessTx s c m compose w).trace =
          [Event.NewEthCrossChainData, Event.GetCurEpochStartHeight]) ∧
      (∀ (e : GoError) (w1 w2 w3 : σ) (h : Nat), c.NewEthCrossChainData w = (none, w1) →
        c.GetCurEpochStartHeight w1 = ((h, none), w2) →
        c.NewEthCrossChainData w2 = (some e, w3) →
        (ProcessTx s c m compose w).tx =
          { m with DstPolyEpochStartHeight := h, DstPolyKeepers := [] } ∧
        (ProcessTx s c m compose w).trace =
          [Event.NewEthCrossChainData, Event.GetCurEpochStartHeight,
           Event.NewEthCrossChainData]) ∧
      (∀ (e : GoError) (w1 w2 w3 w4 : σ) (h : Nat) (k : Bytes),
        c.NewEthCrossChainData w = (none, w1) →
        c.GetCurEpochStartHeight w1 = ((h, none), w2) →
        c.NewEthCrossChainData w2 = (none, w3) →
        c.GetCurEpochConPubKeyBytes w3 = ((k, some e), w4) →
        (ProcessTx s c m compose w).tx =
          { m with DstPolyEpochStartHeight := h, DstPolyKeepers := k } ∧
        (ProcessTx s c m compose w).trace =
          [Event.NewEthCrossChainData, Event.GetCurEpochStartHeight,
           Event.NewEthCrossChainData, Event.GetCurEpochConPubKeyBytes])) := by
  have hty0 : m.kind = TxType.POLY := hty
  refine ⟨?_, ⟨ProcessTx_composeArgs s c m compose w hty hdst,
    ProcessTx_attached s c m compose w hty hdst, ?_⟩, ?_, ?_, ?_, ?_⟩
  · intro w1 w2 w3 w4 h k h1 h2 h3 h4
    have hans := epochAnswers_of_queries c w w1 w2 w3 w4 h k h1 h2 h3 h4
    refine ⟨?_, ?_, ?_, ?_⟩
    · rw [ProcessTx_composeArgs s c m compose w hty hdst, hans]
      rfl
    · rcases hc : compose { m with DstPolyEpochStartHeight := h, DstPolyKeepers := k } w4 with
        ⟨⟨m3, e⟩, w5⟩
      cases e with
      | some e =>
        exact ⟨[], by
          simp [ProcessTx, GetPolyEpochStartHeight, GetPolyKeepers, hty, hdst.symm, h1, h2, h3,
            h4, hc]⟩
      | none =>
        exact ⟨(processPolyTx s c m3 w5).trace, by
          simp [ProcessTx, GetPolyEpochStartHeight, GetPolyKeepers, hty, hdst.symm, h1, h2, h3,
            h4, hc]⟩
    · intro h0 k0
      simp [ProcessTx, GetPolyEpochStartHeight, GetPolyKeepers, Tx.Type, hty0, hdst.symm, h1, h2,
        h3, h4]
    · intro m' compose' v v1 v2 v3 v4 h' k' hty' hdst' g1 g2 g3 g4
      rw [ProcessTx_attached s c m compose w hty hdst,
        ProcessTx_attached s c m' compose' v hty' hdst', hans,
        epochAnswers_of_queries c v v1 v2 v3 v4 h' k' g1 g2 g3 g4]
      simp only [Option.toList, ne_eq, List.cons.injEq, and_true, Prod.mk.injEq]
      tauto
  · intro m' compose' v hty' hdst'
    rw [ProcessTx_attached s c m compose w hty hdst,
      ProcessTx_attached s c m' compose' v hty' hdst']
    cases epochAnswers c w <;> cases epochAnswers c v <;> simp
  · intro e w1 h1
    simp [ProcessTx, GetPolyEpochStartHeight, hty, hdst.symm, h1]
  · intro e w1 w2 h h1 h2
    simp [ProcessTx, GetPolyEpochStartHeight, hty, hdst.symm, h1, h2]
  · intro e w1 w2 w3 h h1 h2 h3
    simp [ProcessTx, GetPolyEpochStartHeight, GetPolyKeepers, hty, hdst.symm, h1, h2, h3]
  · intro e w1 w2 w3 w4 h k h1 h2 h3 h4
    simp [ProcessTx, GetPolyEpochStartHeight, GetPolyKeepers, hty, hdst.symm, h1, h2, h3, h4]

/-- Witness of C5: the sample node answers height 10 and keepers `[1]`; the
message enters with the stale values 3 and `[9]`.  A second attempt, after the
node's epoch moved to 11, attaches different values. -/
theorem ProcessTx_epoch_fresh_witness :
    sampleChain.GetCurEpochStartHeight ⟨10, [1], []⟩ = ((10, none), ⟨10, [1], []⟩) ∧
    sampleChain.GetCurEpochConPubKeyBytes ⟨10, [1], []⟩ = (([1], none), ⟨10, [1], []⟩) ∧
    composeArgs (ProcessTx sampleSubmitter sampleChain
        { Tx.zero with DstChainId := 6, DstPolyEpochStartHeight := 3, DstPolyKeepers := [9] }
        sampleCompose ⟨10, [1], []⟩).trace =
      [{ Tx.zero with DstChainId := 6, DstPolyEpochStartHeight := 10, DstPolyKeepers := [1] }] ∧
    attached (ProcessTx sampleSubmitter sampleChain
        { Tx.zero with DstChainId := 6, DstPolyEpochStartHeight := 3, DstPolyKeepers := [9] }
        sampleCompose ⟨10, [1], []⟩).trace ≠
      attached (ProcessTx sampleSubmitter sampleChain
        { Tx.zero with DstChainId := 6, DstPolyEpochStartHeight := 10, DstPolyKeepers := [1] }
        sampleCompose ⟨11, [1], []⟩).trace :=
  have h := (ProcessTx_epoch_fresh sampleSubmitter sampleChain
    { Tx.zero with DstChainId := 6, DstPolyEpochStartHeight := 3, DstPolyKeepers := [9] }
    sampleCompose ⟨10, [1], []⟩ rfl rfl).1 ⟨10, [1], []⟩ ⟨10, [1], []⟩ ⟨10, [1], []⟩
    ⟨10, [1], []⟩ 10 [1] rfl rfl rfl rfl
  ⟨rfl, rfl, h.1,
   (h.2.2.2 { Tx.zero with DstChainId := 6, DstPolyEpochStartHeight := 10, DstPolyKeepers := [1] }
      sampleCompose ⟨11, [1], []⟩ ⟨11, [1], []⟩ ⟨11, [1], []⟩ ⟨11, [1], []⟩ ⟨11, [1], []⟩ 11 [1]
      rfl rfl rfl rfl rfl rfl).2 (Or.inl (by decide))⟩

end Eth

/-! ## Theorems: the neo Submitter -/

namespace Neo

/-- C4, the code at the failing input: the destination chain of the sample neo
Submitter already holds the record `(2, "0abc")`, and the worker processes a
POLY message with `SrcChainId = 2` and `TxId = "0abc"`.  `ProcessTx` makes the
epoch query, invokes compose and then calls `wallet.Invoke`: the message is
broadcast again and `DstHash` is set to the hash the wallet returned. -/
theorem neo_ProcessTx_already_relayed_invokes :
    ((2, "0abc") ∈ (⟨10, [(2, "0abc")]⟩ : SampleWorld).relayed) ∧
    (ProcessTx sampleSubmitter sampleChain
      { Tx.zero with DstChainId := 4, SrcChainId := 2, TxId := "0abc" } sampleCompose
      ⟨10, [(2, "0abc")]⟩).out = Outcome.ok ∧
    (ProcessTx sampleSubmitter sampleChain
      { Tx.zero with DstChainId := 4, SrcChainId := 2, TxId := "0abc" } sampleCompose
      ⟨10, [(2, "0abc")]⟩).trace.any Event.isBroadcast = true ∧
    (ProcessTx sampleSubmitter sampleChain
      { Tx.zero with DstChainId := 4, SrcChainId := 2, TxId := "0abc" } sampleCompose
      ⟨10, [(2, "0abc")]⟩).tx.DstHash = "0x4e0" := by
  refine ⟨?_, ?_, ?_, ?_⟩
  · decide
  · decide
  · decide
  · decide

end Neo

/-! ## Theorems: the worker loop -/

theorem incInt_of_lt (x : Int) (hlo : -9223372036854775808 ≤ x)
    (hhi : x + 1 ≤ 9223372036854775807) : incInt x = x + 1 := by
  unfold incInt wrapInt
  omega

namespace Eth

theorem submit_Attempts {σ : Type} (s : Submitter) (c : Chain σ) (tx : Tx) (w : σ) :
    (submit s c tx w).tx.Attempts = tx.Attempts := by
  unfold submit
  repeat' split
  all_goals rfl

theorem processPolyTx_Attempts {σ : Type} (s : Submitter) (c : Chain σ) (tx : Tx) (w : σ) :
    (processPolyTx s c tx w).tx.Attempts = tx.Attempts := by
  unfold processPolyTx
  repeat' split
  all_goals first
    | rfl
    | (dsimp only; split <;> simp [submit_Attempts])

theorem ProcessTx_Attempts {σ : Type} (s : Submitter) (c : Chain σ) (m : Tx)
    (compose : PolyComposer σ) (w : σ)
    (hcomp : ∀ t v, (compose t v).1.1.Attempts = t.Attempts) :
    (ProcessTx s c m compose w).tx.Attempts = m.Attempts := by
  by_cases hty : m.Type = TxType.POLY
  · by_cases hdst : m.DstChainId = s.config.ChainId
    · rcases hq1 : GetPolyEpochStartHeight c w with ⟨⟨h, herr⟩, w1, t1⟩
      cases herr with
      | some e => simp [ProcessTx, hty, hdst.symm, hq1]
      | none =>
        rcases hq2 : GetPolyKeepers c w1 with ⟨⟨k, kerr⟩, w2, t2⟩
        cases kerr with
        | some e => simp [ProcessTx, hty, hdst.symm, hq1, hq2]
        | none =>
          have h3 := hcomp { m with DstPolyEpochStartHeight := h, DstPolyKeepers := k } w2
          rcases hc : compose { m with DstPolyEpochStartHeight := h, DstPolyKeepers := k } w2 with
            ⟨⟨m3, e⟩, w3⟩
          rw [hc] at h3
          cases e with
          | some e => simpa [ProcessTx, hty, hdst.symm, hq1, hq2, hc] using h3
          | none =>
            simpa [ProcessTx, hty, hdst.symm, hq1, hq2, hc, processPolyTx_Attempts] using h3
    · simp [ProcessTx, hty, hdst]
  · simp [ProcessTx, hty]

/-- One failed iteration on a bus `tx :: rest`: the message `ProcessTx` left is
pushed once, at the back, with `Attempts` incremented. -/
theorem runStep_failed {σ : Type} (s : Submitter) (c : Chain σ) (account : Account)
    (compose : PolyComposer σ) (st : LoopState σ) (tx : Tx) (rest : List Tx) (w1 : σ)
    (e : GoError)
    (hex : st.exited = none) (hdone : c.Done st.world = false)
    (hpop : c.PopFault st.world = (none, w1)) (hbus : st.bus = tx :: rest)
    (hout : (ProcessTx s c { tx with DstSender := some account } compose w1).out = Outcome.err e)
    (hperm : e.is ERR_INVALID_TX = false) :
    (runStep s c account compose st).bus =
      rest ++ [{ (ProcessTx s c { tx with DstSender := some account } compose w1).tx with
                 Attempts := incInt
                   (ProcessTx s c { tx with DstSender := some account } compose w1).tx.Attempts }] ∧
    (runStep s c account compose st).exited = none := by
  unfold runStep
  simp [hex, hdone, hpop, hbus, hout, hperm]

/-- One successful iteration on a bus `tx :: rest` pushes nothing. -/
theorem runStep_succeeded {σ : Type} (s : Submitter) (c : Chain σ) (account : Account)
    (compose : PolyComposer σ) (st : LoopState σ) (tx : Tx) (rest : List Tx) (w1 : σ)
    (hex : st.exited = none) (hdone : c.Done st.world = false)
    (hpop : c.PopFault st.world = (none, w1)) (hbus : st.bus = tx :: rest)
    (hout : (ProcessTx s c { tx with DstSender := some account } compose w1).out = Outcome.ok) :
    (runStep s c account compose st).bus = rest := by
  unfold runStep
  simp [hex, hdone, hpop, hbus, hout]

/-- An iteration whose `Pop` fails leaves the bus as it was. -/
theorem runStep_popFault {σ : Type} (s : Submitter) (c : Chain σ) (account : Account)
    (compose : PolyComposer σ) (st : LoopState σ) (w1 : σ) (e : GoError)
    (hex : st.exited = none) (hdone : c.Done st.world = false)
    (hpop : c.PopFault st.world = (some e, w1)) :
    (runStep s c account compose st).bus = st.bus := by
  unfold runStep
  simp [hex, hdone, hpop]

/-- An iteration that pops the head of `hd :: rest` leaves `rest`, followed by
whatever it pushes. -/
theorem runStep_popped {σ : Type} (s : Submitter) (c : Chain σ) (account : Account)
    (compose : PolyComposer σ) (st : LoopState σ) (hd : Tx) (rest : List Tx) (w1 : σ)
    (hex : st.exited = none) (hdone : c.Done st.world = false)
    (hpop : c.PopFault st.world = (none, w1)) (hbus : st.bus = hd :: rest) :
    ∃ l, (runStep s c account compose st).bus = rest ++ l := by
  unfold runStep
  simp only [hex, hdone, hpop, hbus]
  rcases hout : (ProcessTx s c { hd with DstSender := some account } compose w1).out with
    _ | e | _
  · exact ⟨[], by simp⟩
  · by_cases hperm : e.is ERR_INVALID_TX = true
    · exact ⟨[], by simp [hperm]⟩
    · exact ⟨_, by simp [hperm]; rfl⟩
  · exact ⟨[], by simp⟩


theorem run_failsInARow {σ : Type} (s : Submitter) (c : Chain σ) (account : Account)
    (compose : PolyComposer σ)
    (hcomp : ∀ t v, (compose t v).1.1.Attempts = t.Attempts) :
    ∀ (n : Nat) (st : LoopState σ) (tx : Tx), st.bus = [tx] →
      failsInARow s c account compose n st = true →
      -9223372036854775808 ≤ tx.Attempts → tx.Attempts + n ≤ 9223372036854775807 →
      ∃ t, (run s c account compose n st).bus = [t] ∧ t.Attempts = tx.Attempts + n := by
  intro n
  induction n with
  | zero =>
    intro st tx hbus _ _ _
    exact ⟨tx, by simpa [run] using hbus, by simp⟩
  | succ n ih =>
    intro st tx hbus hf hlo hhi
    rcases hpop : c.PopFault st.world with ⟨pe, w1⟩
    simp only [failsInARow, hbus, hpop, Bool.and_eq_true, Option.isNone_iff_eq_none,
      Bool.not_eq_true'] at hf
    obtain ⟨⟨⟨⟨hex, hdone⟩, hpe⟩, hproc⟩, hrest⟩ := hf
    subst hpe
    rcases hout : (ProcessTx s c { tx with DstSender := some account } compose w1).out with
      _ | e | _
    · simp [hout] at hproc
    · simp only [hout, Bool.not_eq_true'] at hproc
      have hstep := runStep_failed s c account compose st tx [] w1 e hex hdone hpop hbus hout hproc
      have hatt : (ProcessTx s c { tx with DstSender := some account } compose w1).tx.Attempts =
          tx.Attempts :=
        ProcessTx_Attempts s c { tx with DstSender := some account } compose w1 hcomp
      have hinc : incInt (ProcessTx s c { tx with DstSender := some account } compose w1).tx.Attempts
          = tx.Attempts + 1 := by
        rw [hatt]
        exact incInt_of_lt _ hlo (by push_cast at hhi; omega)
      obtain ⟨t, ht, hatt2⟩ := ih (runStep s c account compose st) _ (by simpa using hstep.1) hrest
        (by simp only [hinc]; omega) (by simp only [hinc]; push_cast at hhi; omega)
      refine ⟨t, by simpa [run] using ht, ?_⟩
      rw [hatt2]
      simp only [hinc]
      push_cast
      omega
    · simp [hout] at hproc

theorem run_follow {σ : Type} (s : Submitter) (c : Chain σ) (account : Account)
    (compose : PolyComposer σ)
    (hcomp : ∀ t v, (compose t v).1.1.Attempts = t.Attempts) :
    ∀ (n : Nat) (st : LoopState σ) (i : Nat) (tx : Tx) (k j : Nat), st.bus[i]? = some tx →
      follow s c account compose n st i = some (k, j) →
      -9223372036854775808 ≤ tx.Attempts → tx.Attempts + k ≤ 9223372036854775807 →
      ∃ t, (run s c account compose n st).bus[j]? = some t ∧ t.Attempts = tx.Attempts + k := by
  intro n
  induction n with
  | zero =>
    intro st i tx k j hget hf _ _
    simp only [follow, Option.some.injEq, Prod.mk.injEq] at hf
    obtain ⟨rfl, rfl⟩ := hf
    exact ⟨tx, by simpa [run] using hget, by simp⟩
  | succ n ih =>
    intro st i tx k j hget hf hlo hhi
    rcases hpop : c.PopFault st.world with ⟨pe, w1⟩
    by_cases hex : st.exited.isSome = true
    · simp [follow, hex] at hf
    have hex2 : st.exited = none := by
      cases h : st.exited with
      | none => rfl
      | some o => simp [h] at hex
    by_cases hdone : c.Done st.world = true
    · simp [follow, hex, hdone] at hf
    have hdone2 : c.Done st.world = false := by simpa using hdone
    cases pe with
    | some e =>
      simp only [follow, hex, hdone, hpop, if_false] at hf
      have hbus := runStep_popFault s c account compose st w1 e hex2 hdone2 hpop
      obtain ⟨t, ht, hatt⟩ := ih (runStep s c account compose st) i tx k j (by rw [hbus]; exact hget)
        hf hlo hhi
      exact ⟨t, by simpa [run] using ht, hatt⟩
    | none =>
      cases hb : st.bus with
      | nil => simp [hb] at hget
      | cons hd rest =>
        cases i with
        | zero =>
          have hhd : hd = tx := by simpa [hb] using hget
          subst hhd
          simp only [follow, hex, hdone, hpop, hb, if_false] at hf
          rcases hout : (ProcessTx s c { hd with DstSender := some account } compose w1).out with
            _ | e | _
          · simp [hout] at hf
          · simp only [hout] at hf
            by_cases hperm : e.is ERR_INVALID_TX = true
            · simp [hperm] at hf
            · have hperm2 : e.is ERR_INVALID_TX = false := by simpa using hperm
              simp only [hperm, if_false] at hf
              rcases hf1 : follow s c account compose n (runStep s c account compose st)
                rest.length with _ | ⟨k1, j1⟩
              · simp [hf1] at hf
              simp only [hf1, Option.map_some', Option.some.injEq, Prod.mk.injEq] at hf
              obtain ⟨rfl, rfl⟩ := hf
              have hstep := runStep_failed s c account compose st hd rest w1 e hex2 hdone2 hpop hb
                hout hperm2
              have hatt : (ProcessTx s c { hd with DstSender := some account } compose w1).tx.Attempts
                  = hd.Attempts :=
                ProcessTx_Attempts s c { hd with DstSender := some account } compose w1 hcomp
              have hinc : incInt
                  (ProcessTx s c { hd with DstSender := some account } compose w1).tx.Attempts =
                  hd.Attempts + 1 := by
                rw [hatt]
                exact incInt_of_lt _ hlo (by push_cast at hhi; omega)
              obtain ⟨t, ht, hatt2⟩ := ih (runStep s c account compose st) rest.length _ _ _
                (by rw [hstep.1]; exact List.getElem?_concat_length _ _) hf1
                (by simp only [hinc]; omega) (by simp only [hinc]; push_cast at hhi; omega)
              refine ⟨t, by simpa [run] using ht, ?_⟩
              rw [hatt2]
              simp only [hinc]
              push_cast
              omega
          · simp [hout] at hf
        | succ i1 =>
          simp only [follow, hex, hdone, hpop, hb, if_false] at hf
          have hget1 : rest[i1]? = some tx := by simpa [hb] using hget
          have hlt : i1 < rest.length := by
            rcases Nat.lt_or_ge i1 rest.length with h | h
            · exact h
            · rw [List.getElem?_eq_none h] at hget1
              cases hget1
          obtain ⟨l, hl⟩ := runStep_popped s c account compose st hd rest w1 hex2 hdone2 hpop hb
          obtain ⟨t, ht, hatt⟩ := ih (runStep s c account compose st) i1 tx k j
            (by rw [hl, List.getElem?_append_left hlt]; exact hget1) hf hlo hhi
          exact ⟨t, by simpa [run] using ht, hatt⟩

end Eth

namespace Neo

theorem neo_processPolyTx_Attempts {σ : Type} (s : Submitter) (c : Chain σ) (tx : Tx) (w : σ) :
    (processPolyTx s c tx w).tx.Attempts = tx.Attempts := by
  unfold processPolyTx
  repeat' split
  all_goals rfl

theorem neo_ProcessTx_Attempts {σ : Type} (s : Submitter) (c : Chain σ) (m : Tx)
    (compose : PolyComposer σ) (w : σ)
    (hcomp : ∀ t v, (compose t v).1.1.Attempts = t.Attempts) :
    (ProcessTx s c m compose w).tx.Attempts = m.Attempts := by
  by_cases hty : m.Type = TxType.POLY
  · by_cases hdst : m.DstChainId = s.config.ChainId
    · rcases hq1 : c.GetPolyEpochHeight s.ccm s.polyId w with ⟨⟨h, herr⟩, w1⟩
      cases herr with
      | some e => simp [ProcessTx, hty, hdst.symm, hq1]
      | none =>
        have h3 := hcomp { m with DstPolyEpochStartHeight := h % 4294967296 } w1
        rcases hc : compose { m with DstPolyEpochStartHeight := h % 4294967296 } w1 with
          ⟨⟨m2, e⟩, w2⟩
        rw [hc] at h3
        cases e with
        | some e => simpa [ProcessTx, hty, hdst.symm, hq1, hc] using h3
        | none => simpa [ProcessTx, hty, hdst.symm, hq1, hc, neo_processPolyTx_Attempts] using h3
    · simp [ProcessTx, hty, hdst]
  · simp [ProcessTx, hty]

/-- One failed iteration on a bus `tx :: rest`: the message `ProcessTx` left is
pushed once, at the back, with `Attempts` incremented. -/
theorem neo_runStep_failed {σ : Type} (s : Submitter) (c : Chain σ)  (compose : PolyComposer σ) (st : LoopState σ) (tx : Tx) (rest : List Tx) (w1 : σ)
    (e : GoError)
    (hex : st.exited = none) (hdone : c.Done st.world = false)
    (hpop : c.PopFault st.world = (none, w1)) (hbus : st.bus = tx :: rest)
    (hout : (ProcessTx s c tx compose w1).out = Outcome.err e)
    (hperm : e.is ERR_INVALID_TX = false) :
    (runStep s c compose st).bus =
      rest ++ [{ (ProcessTx s c tx compose w1).tx with
                 Attempts := incInt
                   (ProcessTx s c tx compose w1).tx.Attempts }] ∧
    (runStep s c compose st).exited = none := by
  unfold runStep
  simp [hex, hdone, hpop, hbus, hout, hperm]

/-- One successful iteration on a bus `tx :: rest` pushes nothing. -/
theorem neo_runStep_succeeded {σ : Type} (s : Submitter) (c : Chain σ)  (compose : PolyComposer σ) (st : LoopState σ) (tx : Tx) (rest : List Tx) (w1 : σ)
    (hex : st.exited = none) (hdone : c.Done st.world = false)
    (hpop : c.PopFault st.world = (none, w1)) (hbus : st.bus = tx :: rest)
    (hout : (ProcessTx s c tx compose w1).out = Outcome.ok) :
    (runStep s c compose st).bus = rest := by
  unfold runStep
  simp [hex, hdone, hpop, hbus, hout]

/-- An iteration whose `Pop` fails leaves the bus as it was. -/
theorem neo_runStep_popFault {σ : Type} (s : Submitter) (c : Chain σ)  (compose : PolyComposer σ) (st : LoopState σ) (w1 : σ) (e : GoError)
    (hex : st.exited = none) (hdone : c.Done st.world = false)
    (hpop : c.PopFault st.world = (some e, w1)) :
    (runStep s c compose st).bus = st.bus := by
  unfold runStep
  simp [hex, hdone, hpop]

/-- An iteration that pops the head of `hd :: rest` leaves `rest`, followed by
whatever it pushes. -/
theorem neo_runStep_popped {σ : Type} (s : Submitter) (c : Chain σ)  (compose : PolyComposer σ) (st : LoopState σ) (hd : Tx) (rest : List Tx) (w1 : σ)
    (hex : st.exited = none) (hdone : c.Done st.world = false)
    (hpop : c.PopFault st.world = (none, w1)) (hbus : st.bus = hd :: rest) :
    ∃ l, (runStep s c compose st).bus = rest ++ l := by
  unfold runStep
  simp only [hex, hdone, hpop, hbus]
  rcases hout : (ProcessTx s c hd compose w1).out with
    _ | e | _
  · exact ⟨[], by simp⟩
  · by_cases hperm : e.is ERR_INVALID_TX = true
    · exact ⟨[], by simp [hperm]⟩
    · exact ⟨_, by simp [hperm]; rfl⟩
  · exact ⟨[], by simp⟩


theorem neo_run_failsInARow {σ : Type} (s : Submitter) (c : Chain σ)  (compose : PolyComposer σ)
    (hcomp : ∀ t v, (compose t v).1.1.Attempts = t.Attempts) :
    ∀ (n : Nat) (st : LoopState σ) (tx : Tx), st.bus = [tx] →
      failsInARow s c compose n st = true →
      -9223372036854775808 ≤ tx.Attempts → tx.Attempts + n ≤ 9223372036854775807 →
      ∃ t, (run s c compose n st).bus = [t] ∧ t.Attempts = tx.Attempts + n := by
  intro n
  induction n with
  | zero =>
    intro st tx hbus _ _ _
    exact ⟨tx, by simpa [run] using hbus, by simp⟩
  | succ n ih =>
    intro st tx hbus hf hlo hhi
    rcases hpop : c.PopFault st.world with ⟨pe, w1⟩
    simp only [failsInARow, hbus, hpop, Bool.and_eq_true, Option.isNone_iff_eq_none,
      Bool.not_eq_true'] at hf
    obtain ⟨⟨⟨⟨hex, hdone⟩, hpe⟩, hproc⟩, hrest⟩ := hf
    subst hpe
    rcases hout : (ProcessTx s c tx compose w1).out with
      _ | e | _
    · simp [hout] at hproc
    · simp only [hout, Bool.not_eq_true'] at hproc
      have hstep := neo_runStep_failed s c compose st tx [] w1 e hex hdone hpop hbus hout hproc
      have hatt : (ProcessTx s c tx compose w1).tx.Attempts =
          tx.Attempts :=
        neo_ProcessTx_Attempts s c tx compose w1 hcomp
      have hinc : incInt (ProcessTx s c tx compose w1).tx.Attempts
          = tx.Attempts + 1 := by
        rw [hatt]
        exact incInt_of_lt _ hlo (by push_cast at hhi; omega)
      obtain ⟨t, ht, hatt2⟩ := ih (runStep s c compose st) _ (by simpa using hstep.1) hrest
        (by simp only [hinc]; omega) (by simp only [hinc]; push_cast at hhi; omega)
      refine ⟨t, by simpa [run] using ht, ?_⟩
      rw [hatt2]
      simp only [hinc]
      push_cast
      omega
    · simp [hout] at hproc

theorem neo_run_follow {σ : Type} (s : Submitter) (c : Chain σ)  (compose : PolyComposer σ)
    (hcomp : ∀ t v, (compose t v).1.1.Attempts = t.Attempts) :
    ∀ (n : Nat) (st : LoopState σ) (i : Nat) (tx : Tx) (k j : Nat), st.bus[i]? = some tx →
      follow s c compose n st i = some (k, j) →
      -9223372036854775808 ≤ tx.Attempts → tx.Attempts + k ≤ 9223372036854775807 →
      ∃ t, (run s c compose n st).bus[j]? = some t ∧ t.Attempts = tx.Attempts + k := by
  intro n
  induction n with
  | zero =>
    intro st i tx k j hget hf _ _
    simp only [follow, Option.some.injEq, Prod.mk.injEq] at hf
    obtain ⟨rfl, rfl⟩ := hf
    exact ⟨tx, by simpa [run] using hget, by simp⟩
  | succ n ih =>
    intro st i tx k j hget hf hlo hhi
    rcases hpop : c.PopFault st.world with ⟨pe, w1⟩
    by_cases hex : st.exited.isSome = true
    · simp [follow, hex] at hf
    have hex2 : st.exited = none := by
      cases h : st.exited with
      | none => rfl
      | some o => simp [h] at hex
    by_cases hdone : c.Done st.world = true
    · simp [follow, hex, hdone] at hf
    have hdone2 : c.Done st.world = false := by simpa using hdone
    cases pe with
    | some e =>
      simp only [follow, hex, hdone, hpop, if_false] at hf
      have hbus := neo_runStep_popFault s c compose st w1 e hex2 hdone2 hpop
      obtain ⟨t, ht, hatt⟩ := ih (runStep s c compose st) i tx k j (by rw [hbus]; exact hget)
        hf hlo hhi
      exact ⟨t, by simpa [run] using ht, hatt⟩
    | none =>
      cases hb : st.bus with
      | nil => simp [hb] at hget
      | cons hd rest =>
        cases i with
        | zero =>
          have hhd : hd = tx := by simpa [hb] using hget
          subst hhd
          simp only [follow, hex, hdone, hpop, hb, if_false] at hf
          rcases hout : (ProcessTx s c hd compose w1).out with
            _ | e | _
          · simp [hout] at hf
          · simp only [hout] at hf
            by_cases hperm : e.is ERR_INVALID_TX = true
            · simp [hperm] at hf
            · have hperm2 : e.is ERR_INVALID_TX = false := by simpa using hperm
              simp only [hperm, if_false] at hf
              rcases hf1 : follow s c compose n (runStep s c compose st)
                rest.length with _ | ⟨k1, j1⟩
              · simp [hf1] at hf
              simp only [hf1, Option.map_some', Option.some.injEq, Prod.mk.injEq] at hf
              obtain ⟨rfl, rfl⟩ := hf
              have hstep := neo_runStep_failed s c compose st hd rest w1 e hex2 hdone2 hpop hb
                hout hperm2
              have hatt : (ProcessTx s c hd compose w1).tx.Attempts
                  = hd.Attempts :=
                neo_ProcessTx_Attempts s c hd compose w1 hcomp
              have hinc : incInt
                  (ProcessTx s c hd compose w1).tx.Attempts =
                  hd.Attempts + 1 := by
                rw [hatt]
                exact incInt_of_lt _ hlo (by push_cast at hhi; omega)
              obtain ⟨t, ht, hatt2⟩ := ih (runStep s c compose st) rest.length _ _ _
                (by rw [hstep.1]; exact List.getElem?_concat_length _ _) hf1
                (by simp only [hinc]; omega) (by simp only [hinc]; push_cast at hhi; omega)
              refine ⟨t, by simpa [run] using ht, ?_⟩
              rw [hatt2]
              simp only [hinc]
              push_cast
              omega
          · simp [hout] at hf
        | succ i1 =>
          simp only [follow, hex, hdone, hpop, hb, if_false] at hf
          have hget1 : rest[i1]? = some tx := by simpa [hb] using hget
          have hlt : i1 < rest.length := by
            rcases Nat.lt_or_ge i1 rest.length with h | h
            · exact h
            · rw [List.getElem?_eq_none h] at hget1
              cases hget1
          obtain ⟨l, hl⟩ := neo_runStep_popped s c compose st hd rest w1 hex2 hdone2 hpop hb
          obtain ⟨t, ht, hatt⟩ := ih (runStep s c compose st) i1 tx k j
            (by rw [hl, List.getElem?_append_left hlt]; exact hget1) hf hlo hhi
          exact ⟨t, by simpa [run] using ht, hatt⟩


end Neo

/-- C6, counterexamples to the claim as stated.  (1) With a compose callback
that rewrites the counter (`resetCompose` sets `Attempts` to 0 and fails), a
message with `Attempts = 5` is popped and fails three times in a row, and is
then on the bus with `Attempts = 1`, not `5 + 3`.  (2) `Attempts` is a Go
`int`: a message with the largest value `9223372036854775807` fails once and is
pushed back with `Attempts = -9223372036854775808`, not `a + 1`. -/
theorem run_retry_not_monotone :
    (Eth.failsInARow Eth.sampleSubmitter Eth.sampleChain Eth.sampleAccount Eth.resetCompose 3
        ⟨[{ Tx.zero with DstChainId := 6, Attempts := 5 }], ⟨10, [1], []⟩, [], none⟩ = true ∧
      (Eth.run Eth.sampleSubmitter Eth.sampleChain Eth.sampleAccount Eth.resetCompose 3
        ⟨[{ Tx.zero with DstChainId := 6, Attempts := 5 }], ⟨10, [1], []⟩, [], none⟩).bus.map
          Tx.Attempts = [1] ∧
      (Eth.run Eth.sampleSubmitter Eth.sampleChain Eth.sampleAccount Eth.resetCompose 3
        ⟨[{ Tx.zero with DstChainId := 6, Attempts := 5 }], ⟨10, [1], []⟩, [], none⟩).bus.map
          Tx.Attempts ≠ [5 + 3]) ∧
    (Eth.failsInARow Eth.sampleSubmitter Eth.downChain Eth.sampleAccount Eth.sampleCompose 1
        ⟨[{ Tx.zero with DstChainId := 6, Attempts := 9223372036854775807 }], ⟨10, [1], []⟩, [],
          none⟩ = true ∧
      (Eth.run Eth.sampleSubmitter Eth.downChain Eth.sampleAccount Eth.sampleCompose 1
        ⟨[{ Tx.zero with DstChainId := 6, Attempts := 9223372036854775807 }], ⟨10, [1], []⟩, [],
          none⟩).bus.map Tx.Attempts = [-9223372036854775808] ∧
      (Eth.run Eth.sampleSubmitter Eth.downChain Eth.sampleAccount Eth.sampleCompose 1
        ⟨[{ Tx.zero with DstChainId := 6, Attempts := 9223372036854775807 }], ⟨10, [1], []⟩, [],
          none⟩).bus.map Tx.Attempts ≠ [9223372036854775807 + 1]) := by
  refine ⟨⟨?_, ?_, ?_⟩, ⟨?_, ?_, ?_⟩⟩
  · decide
  · decide
  · decide
  · decide
  · decide
  · decide

/-- C6, amended: retry monotonicity of the worker loops of the eth and the neo
Submitter, with the bus a queue, for a compose callback that leaves `Attempts`
alone and a counter that does not overflow (`Attempts` is a Go `int`: `a` is
at least `-2^63` and `a + N` at most `2^63 - 1`).  (1, 2) If over any number
of iterations the message `tx`, at position `i` of the bus, is popped `N`
times and `ProcessTx` fails on it each time with an error that is not
`ERR_INVALID_TX` (the loop not ending, and only iterations on other messages
or failed pops in between), then the message is on the bus afterwards, at the
position the loop left it, with `Attempts = a + N`.  (3, 4) In particular,
when `tx` is alone on the bus and fails in `N` consecutive iterations, the bus
then holds exactly one message, with `Attempts = a + N`.  (5, 7) One failed
iteration on a bus `tx :: rest` leaves `rest` followed by exactly one message,
the one `ProcessTx` left with `Attempts = a + 1`.  (6, 8) A successful
iteration leaves `rest`: it pushes nothing. -/
theorem run_retry_monotone {σ τ : Type} (composeE : PolyComposer σ) (composeN : PolyComposer τ)
    (hE : ∀ t v, (composeE t v).1.1.Attempts = t.Attempts)
    (hN : ∀ t v, (composeN t v).1.1.Attempts = t.Attempts) (N : Nat) (tx : Tx)
    (hlo : -9223372036854775808 ≤ tx.Attempts)
    (hhi : tx.Attempts + N ≤ 9223372036854775807) :
    (∀ (s : Eth.Submitter) (c : Eth.Chain σ) (account : Account) (st : Eth.LoopState σ)
      (n i j : Nat), st.bus[i]? = some tx →
      Eth.follow s c account composeE n st i = some (N, j) →
      ∃ t, (Eth.run s c account composeE n st).bus[j]? = some t ∧
        t.Attempts = tx.Attempts + N) ∧
    (∀ (s : Neo.Submitter) (c : Neo.Chain τ) (st : Neo.LoopState τ) (n i j : Nat),
      st.bus[i]? = some tx →
      Neo.follow s c composeN n st i = some (N, j) →
      ∃ t, (Neo.run s c composeN n st).bus[j]? = some t ∧ t.Attempts = tx.Attempts + N) ∧
    (∀ (s : Eth.Submitter) (c : Eth.Chain σ) (account : Account) (st : Eth.LoopState σ),
      st.bus = [tx] → Eth.failsInARow s c account composeE N st = true →
      ∃ t, (Eth.run s c account composeE N st).bus = [t] ∧ t.Attempts = tx.Attempts + N) ∧
    (∀ (s : Neo.Submitter) (c : Neo.Chain τ) (st : Neo.LoopState τ),
      st.bus = [tx] → Neo.failsInARow s c composeN N st = true →
      ∃ t, (Neo.run s c composeN N st).bus = [t] ∧ t.Attempts = tx.Attempts + N) ∧
    (∀ (s : Eth.Submitter) (c : Eth.Chain σ) (account : Account) (st : Eth.LoopState σ)
      (rest : List Tx) (w1 : σ) (e : GoError),
      1 ≤ N →
      st.exited = none → c.Done st.world = false → c.PopFault st.world = (none, w1) →
      st.bus = tx :: rest →
      (Eth.ProcessTx s c { tx with DstSender := some account } composeE w1).out = Outcome.err e →
      e.is ERR_INVALID_TX = false →
      ∃ t, (Eth.runStep s c account composeE st).bus = rest ++ [t] ∧
        t.Attempts = tx.Attempts + 1 ∧
        t = { (Eth.ProcessTx s c { tx with DstSender := some account } composeE w1).tx with
              Attempts := tx.Attempts + 1 }) ∧
    (∀ (s : Eth.Submitter) (c : Eth.Chain σ) (account : Account) (st : Eth.LoopState σ)
      (rest : List Tx) (w1 : σ),
      st.exited = none → c.Done st.world = false → c.PopFault st.world = (none, w1) →
      st.bus = tx :: rest →
      (Eth.ProcessTx s c { tx with DstSender := some account } composeE w1).out = Outcome.ok →
      (Eth.runStep s c account composeE st).bus = rest) ∧
    (∀ (s : Neo.Submitter) (c : Neo.Chain τ) (st : Neo.LoopState τ)
      (rest : List Tx) (w1 : τ) (e : GoError),
      1 ≤ N →
      st.exited = none → c.Done st.world = false → c.PopFault st.world = (none, w1) →
      st.bus = tx :: rest →
      (Neo.ProcessTx s c tx composeN w1).out = Outcome.err e →
      e.is ERR_INVALID_TX = false →
      ∃ t, (Neo.runStep s c composeN st).bus = rest ++ [t] ∧
        t.Attempts = tx.Attempts + 1 ∧
        t = { (Neo.ProcessTx s c tx composeN w1).tx with Attempts := tx.Attempts + 1 }) ∧
    (∀ (s : Neo.Submitter) (c : Neo.Chain τ) (st : Neo.LoopState τ)
      (rest : List Tx) (w1 : τ),
      st.exited = none → c.Done st.world = false → c.PopFault st.world = (none, w1) →
      st.bus = tx :: rest →
      (Neo.ProcessTx s c tx composeN w1).out = Outcome.ok →
      (Neo.runStep s c composeN st).bus = rest) := by
  refine ⟨?_, ?_, ?_, ?_, ?_, ?_, ?_, ?_⟩
  · intro s c account st n i j hget hf
    exact Eth.run_follow s c account composeE hE n st i tx N j hget hf hlo hhi
  · intro s c st n i j hget hf
    exact Neo.neo_run_follow s c composeN hN n st i tx N j hget hf hlo hhi
  · intro s c account st hbus hf
    exact Eth.run_failsInARow s c account composeE hE N st tx hbus hf hlo hhi
  · intro s c st hbus hf
    exact Neo.neo_run_failsInARow s c composeN hN N st tx hbus hf hlo hhi
  · intro s c account st rest w1 e hN1 hex hdone hpop hbus hout hperm
    have hstep := Eth.runStep_failed s c account composeE st tx rest w1 e hex hdone hpop hbus
      hout hperm
    have hatt : (Eth.ProcessTx s c { tx with DstSender := some account } composeE w1).tx.Attempts =
        tx.Attempts :=
      Eth.ProcessTx_Attempts s c { tx with DstSender := some account } composeE w1 hE
    have hinc : incInt tx.Attempts = tx.Attempts + 1 :=
      incInt_of_lt _ hlo (by have : (1 : Int) ≤ (N : Int) := by exact_mod_cast hN1
                             omega)
    rw [hatt, hinc] at hstep
    exact ⟨_, hstep.1, rfl, rfl⟩
  · intro s c account st rest w1 hex hdone hpop hbus hout
    exact Eth.runStep_succeeded s c account composeE st tx rest w1 hex hdone hpop hbus hout
  · intro s c st rest w1 e hN1 hex hdone hpop hbus hout hperm
    have hstep := Neo.neo_runStep_failed s c composeN st tx rest w1 e hex hdone hpop hbus
      hout hperm
    have hatt : (Neo.ProcessTx s c tx composeN w1).tx.Attempts = tx.Attempts :=
      Neo.neo_ProcessTx_Attempts s c tx composeN w1 hN
    have hinc : incInt tx.Attempts = tx.Attempts + 1 :=
      incInt_of_lt _ hlo (by have : (1 : Int) ≤ (N : Int) := by exact_mod_cast hN1
                             omega)
    rw [hatt, hinc] at hstep
    exact ⟨_, hstep.1, rfl, rfl⟩
  · intro s c st rest w1 hex hdone hpop hbus hout
    exact Neo.neo_runStep_succeeded s c composeN st tx rest w1 hex hdone hpop hbus hout

/-- Witness of C6 amended, against the sample nodes that are down.  In the eth
loop a message with `Attempts = 2` shares the bus with a second message: over
five iterations it is popped three times, fails each time, and is then at
position 1 with `Attempts = 5`.  Alone on the bus it fails three times in a
row and is then the only message, with `Attempts = 5`, in the eth loop and in
the neo loop. -/
theorem run_retry_monotone_witness :
    (Eth.follow Eth.sampleSubmitter Eth.downChain Eth.sampleAccount Eth.sampleCompose 5
      ⟨[{ Tx.zero with DstChainId := 6, Attempts := 2 },
        { Tx.zero with DstChainId := 6, PolyHash := "b" }], ⟨10, [1], []⟩, [], none⟩ 0 =
      some (3, 1)) ∧
    (∃ t, (Eth.run Eth.sampleSubmitter Eth.downChain Eth.sampleAccount Eth.sampleCompose 5
      ⟨[{ Tx.zero with DstChainId := 6, Attempts := 2 },
        { Tx.zero with DstChainId := 6, PolyHash := "b" }], ⟨10, [1], []⟩, [], none⟩).bus[1]? =
        some t ∧ t.Attempts = (2 : Int) + ((3 : Nat) : Int)) ∧
    (Eth.failsInARow Eth.sampleSubmitter Eth.downChain Eth.sampleAccount Eth.sampleCompose 3
      ⟨[{ Tx.zero with DstChainId := 6, Attempts := 2 }], ⟨10, [1], []⟩, [], none⟩ = true) ∧
    (∃ t, (Eth.run Eth.sampleSubmitter Eth.downChain Eth.sampleAccount Eth.sampleCompose 3
      ⟨[{ Tx.zero with DstChainId := 6, Attempts := 2 }], ⟨10, [1], []⟩, [], none⟩).bus = [t] ∧
      t.Attempts = (2 : Int) + ((3 : Nat) : Int)) ∧
    (Neo.failsInARow Neo.sampleSubmitter Neo.downChain Neo.sampleCompose 3
      ⟨[{ Tx.zero with DstChainId := 4, Attempts := 2 }], ⟨10, []⟩, [], none⟩ = true) ∧
    (∃ t, (Neo.run Neo.sampleSubmitter Neo.downChain Neo.sampleCompose 3
      ⟨[{ Tx.zero with DstChainId := 4, Attempts := 2 }], ⟨10, []⟩, [], none⟩).bus = [t] ∧
      t.Attempts = (2 : Int) + ((3 : Nat) : Int)) :=
  ⟨by decide,
   (run_retry_monotone Eth.sampleCompose Neo.sampleCompose (fun _ _ => rfl) (fun _ _ => rfl) 3
     { Tx.zero with DstChainId := 6, Attempts := 2 } (by decide) (by decide)).1
     Eth.sampleSubmitter Eth.downChain Eth.sampleAccount
     ⟨[{ Tx.zero with DstChainId := 6, Attempts := 2 },
       { Tx.zero with DstChainId := 6, PolyHash := "b" }], ⟨10, [1], []⟩, [], none⟩ 5 0 1 rfl
     (by decide),
   by decide,
   (run_retry_monotone Eth.sampleCompose Neo.sampleCompose (fun _ _ => rfl) (fun _ _ => rfl) 3
     { Tx.zero with DstChainId := 6, Attempts := 2 } (by decide) (by decide)).2.2.1
     Eth.sampleSubmitter Eth.downChain Eth.sampleAccount
     ⟨[{ Tx.zero with DstChainId := 6, Attempts := 2 }], ⟨10, [1], []⟩, [], none⟩ rfl (by decide),
   by decide,
   (run_retry_monotone Eth.sampleCompose Neo.sampleCompose (fun _ _ => rfl) (fun _ _ => rfl) 3
     { Tx.zero with DstChainId := 4, Attempts := 2 } (by decide) (by decide)).2.2.2.1
     Neo.sampleSubmitter Neo.downChain
     ⟨[{ Tx.zero with DstChainId := 4, Attempts := 2 }], ⟨10, []⟩, [], none⟩ rfl (by decide)⟩

/-! ## Theorems: the ok Listener -/

namespace Ok

/-- C7: for every Tx with `SrcHeight = 0`, or an empty `TxId`, or an empty
`SrcParam`, `Listener.Compose` returns an error, makes no call (`GetProof` is
not called: the trace is empty), and leaves the message, hence `Param`,
`SrcEvent`, `SrcProof` and `SrcProofHeight`, and the world unchanged. -/
theorem Compose_missing_attributes {σ : Type} (c : Chain σ) (tx : Tx) (w : σ)
    (h : tx.SrcHeight = 0 ∨ tx.TxId = "" ∨ tx.SrcParam = "") :
    (∃ e, (Compose c tx w).err = some e) ∧
    (Compose c tx w).trace = [] ∧
    (Compose c tx w).tx = tx ∧
    (Compose c tx w).tx.Param = tx.Param ∧
    (Compose c tx w).tx.SrcEvent = tx.SrcEvent ∧
    (Compose c tx w).tx.SrcProof = tx.SrcProof ∧
    (Compose c tx w).tx.SrcProofHeight = tx.SrcProofHeight ∧
    (Compose c tx w).world = w := by
  unfold Compose
  by_cases h1 : tx.SrcHeight = 0 ∨ tx.TxId = ""
  · simp [h1]
  · have h2 : tx.SrcParam = "" := by
      rcases h with h | h | h
      · exact absurd (Or.inl h) h1
      · exact absurd (Or.inr h) h1
      · exact h
    simp [h1, h2]

/-- Witness of C7: a message with a height and an id but no `SrcParam`. -/
theorem Compose_missing_attributes_witness :
    ((1000 : Nat) = 0 ∨ ("0abc" : String) = "" ∨ ("" : String) = "") ∧
    (∃ e, (Compose sampleChain { Tx.zero with SrcHeight := 1000, TxId := "0abc" } ⟨[7]⟩).err =
      some e) ∧
    (Compose sampleChain { Tx.zero with SrcHeight := 1000, TxId := "0abc" } ⟨[7]⟩).trace = [] :=
  have h := Compose_missing_attributes sampleChain
    { Tx.zero with SrcHeight := 1000, TxId := "0abc" } ⟨[7]⟩ (Or.inr (Or.inr rfl))
  ⟨Or.inr (Or.inr rfl), h.1, h.2.1⟩

/-- C8, counterexample: on a listener whose relay-chain SDK handle is nil,
`LastHeaderSync(5, 0)` returns height 0 and an error, not `(5, nil)`. -/
theorem LastHeaderSync_forced_nil_poly :
    (LastHeaderSync ⟨false, 66⟩ sampleChain 5 0 ⟨[7]⟩).height = 0 ∧
    (LastHeaderSync ⟨false, 66⟩ sampleChain 5 0 ⟨[7]⟩).err =
      some (GoError.errorf "No poly sdk provided for listener") ∧
    ((LastHeaderSync ⟨false, 66⟩ sampleChain 5 0 ⟨[7]⟩).height,
      (LastHeaderSync ⟨false, 66⟩ sampleChain 5 0 ⟨[7]⟩).err) ≠ (5, none) := by
  refine ⟨?_, ?_, ?_⟩
  · decide
  · decide
  · decide

/-- C8, amended: for every `force ≠ 0` and every `last`, on a listener whose
relay-chain SDK handle is set `LastHeaderSync(force, last)` returns
`(force, nil)` without querying the relay chain (the trace is empty and the
world unchanged); on a listener whose handle is nil it returns height 0 and an
error, also without a query. -/
theorem LastHeaderSync_forced {σ : Type} (l : Listener) (c : Chain σ) (force last : Nat) (w : σ)
    (hforce : force ≠ 0) :
    (l.hasPoly = true →
      (LastHeaderSync l c force last w).height = force ∧
      (LastHeaderSync l c force last w).err = none ∧
      (LastHeaderSync l c force last w).trace = [] ∧
      (LastHeaderSync l c force last w).world = w) ∧
    (l.hasPoly = false →
      (LastHeaderSync l c force last w).height = 0 ∧
      (∃ e, (LastHeaderSync l c force last w).err = some e) ∧
      (LastHeaderSync l c force last w).trace = [] ∧
      (LastHeaderSync l c force last w).world = w) := by
  constructor
  · intro hp
    simp [LastHeaderSync, hp, hforce]
  · intro hp
    simp [LastHeaderSync, hp]

/-- Witness of C8 amended: forced height 5 on a listener with a handle. -/
theorem LastHeaderSync_forced_witness :
    (5 : Nat) ≠ 0 ∧
    (LastHeaderSync ⟨true, 66⟩ sampleChain 5 9 ⟨[7]⟩).height = 5 ∧
    (LastHeaderSync ⟨true, 66⟩ sampleChain 5 9 ⟨[7]⟩).err = none ∧
    (LastHeaderSync ⟨true, 66⟩ sampleChain 5 9 ⟨[7]⟩).trace = [] :=
  have h := (LastHeaderSync_forced ⟨true, 66⟩ sampleChain 5 9 ⟨[7]⟩ (by decide)).1 rfl
  ⟨by decide, h.1, h.2.1, h.2.2.1⟩

/-- C9: with `force = 0`, when the relay-chain epoch query succeeds and its
bytes deserialize to an epoch switch info, `LastHeaderSync(0, last)` returns
no error and the maximum of `last` and the epoch-switch height
`e = uint64(info.Height)`; the result is at least `last` and at least `e`, and
when `info.Height` is not negative (and fits 64 bits) it is the maximum of
`info.Height` and `last`. -/
theorem LastHeaderSync_never_regresses {σ : Type} (l : Listener) (c : Chain σ) (last : Nat)
    (w w1 : σ) (epoch : Bytes) (info : CosmosEpochSwitchInfo)
    (hpoly : l.hasPoly = true)
    (hq : c.GetSideChainEpoch l.chainId w = ((epoch, none), w1))
    (hd : c.EpochDeserialization epoch = Except.ok info) :
    (LastHeaderSync l c 0 last w).height = max (uint64 info.Height) last ∧
    (LastHeaderSync l c 0 last w).err = none ∧
    last ≤ (LastHeaderSync l c 0 last w).height ∧
    uint64 info.Height ≤ (LastHeaderSync l c 0 last w).height ∧
    (0 ≤ info.Height → info.Height < 18446744073709551616 →
      ((LastHeaderSync l c 0 last w).height : Int) = max info.Height (last : Int)) := by
  have hr : (LastHeaderSync l c 0 last w).height =
      if last > uint64 info.Height then last else uint64 info.Height := by
    simp [LastHeaderSync, hpoly, hq, hd]
  have he : (LastHeaderSync l c 0 last w).err = none := by
    simp [LastHeaderSync, hpoly, hq, hd]
  have hmax : (LastHeaderSync l c 0 last w).height = max (uint64 info.Height) last := by
    rw [hr]
    split <;> omega
  refine ⟨hmax, he, ?_, ?_, ?_⟩
  · rw [hmax]; exact le_max_right _ _
  · rw [hmax]; exact le_max_left _ _
  · intro h0 h1
    have hu : ((uint64 info.Height : Nat) : Int) = info.Height := by
      unfold uint64
      rw [Int.toNat_of_nonneg (Int.emod_nonneg _ (by decide))]
      exact Int.emod_eq_of_lt h0 h1
    rw [hmax]
    push_cast
    rw [hu]

/-- Witness of C9: the relay chain records epoch-switch height 7; with
`last = 9` the result is 9, and with `last = 3` it is 7. -/
theorem LastHeaderSync_never_regresses_witness :
    (LastHeaderSync ⟨true, 66⟩ sampleChain 0 9 ⟨[7]⟩).height = max (uint64 7) 9 ∧
    (LastHeaderSync ⟨true, 66⟩ sampleChain 0 3 ⟨[7]⟩).height = max (uint64 7) 3 :=
  ⟨(LastHeaderSync_never_regresses ⟨true, 66⟩ sampleChain 9 ⟨[7]⟩ ⟨[7]⟩ [7] ⟨7⟩ rfl rfl rfl).1,
   (LastHeaderSync_never_regresses ⟨true, 66⟩ sampleChain 3 ⟨[7]⟩ ⟨[7]⟩ [7] ⟨7⟩ rfl rfl rfl).1⟩

end Ok

/-! ## Theorems: the server -/

namespace Relayer

theorem initLoop_trace_of_ok {σ : Type} (ops : Ops σ) :
    ∀ (l : List Handler) (w : σ), (initLoop ops l w).err = none →
      (initLoop ops l w).trace = l.map Event.Init := by
  intro l
  induction l with
  | nil => intro w _; rfl
  | cons a l ih =>
    intro w hok
    rcases hi : ops.Init a w with ⟨oe, w1⟩
    cases oe with
    | some e => simp [initLoop, hi] at hok
    | none =>
      simp only [initLoop, hi] at hok ⊢
      simp [ih w1 hok]

theorem startLoop_trace_of_ok {σ : Type} (ops : Ops σ) :
    ∀ (l : List Handler) (w : σ), (startLoop ops l w).err = none →
      (startLoop ops l w).trace = l.map Event.Start := by
  intro l
  induction l with
  | nil => intro w _; rfl
  | cons a l ih =>
    intro w hok
    rcases hi : ops.Start a w with ⟨oe, w1⟩
    cases oe with
    | some e => simp [startLoop, hi] at hok
    | none =>
      simp only [startLoop, hi] at hok ⊢
      simp [ih w1 hok]

theorem initLoop_first_failure {σ : Type} (ops : Ops σ) (h : Handler) (post : List Handler)
    (e : GoError) (w1 w2 : σ) (hfail : ops.Init h w1 = (some e, w2)) :
    ∀ (pre : List Handler) (w : σ), (initLoop ops pre w).err = none →
      (initLoop ops pre w).world = w1 →
      initLoop ops (pre ++ h :: post) w = ⟨some e, w2, pre.map Event.Init ++ [Event.Init h]⟩ := by
  intro pre
  induction pre with
  | nil =>
    intro w _ hw
    simp only [initLoop] at hw
    subst hw
    simp [initLoop, hfail]
  | cons a l ih =>
    intro w hok hw
    rcases hi : ops.Init a w with ⟨oe, w'⟩
    cases oe with
    | some e' => simp [initLoop, hi] at hok
    | none =>
      simp only [initLoop, hi] at hok hw
      simp [initLoop, hi, ih w' hok hw]

theorem startLoop_first_failure {σ : Type} (ops : Ops σ) (h : Handler) (post : List Handler)
    (e : GoError) (w1 w2 : σ) (hfail : ops.Start h w1 = (some e, w2)) :
    ∀ (pre : List Handler) (w : σ), (startLoop ops pre w).err = none →
      (startLoop ops pre w).world = w1 →
      startLoop ops (pre ++ h :: post) w =
        ⟨some e, w2, pre.map Event.Start ++ [Event.Start h]⟩ := by
  intro pre
  induction pre with
  | nil =>
    intro w _ hw
    simp only [startLoop] at hw
    subst hw
    simp [startLoop, hfail]
  | cons a l ih =>
    intro w hok hw
    rcases hi : ops.Start a w with ⟨oe, w'⟩
    cases oe with
    | some e' => simp [startLoop, hi] at hok
    | none =>
      simp only [startLoop, hi] at hok hw
      simp [startLoop, hi, ih w' hok hw]

theorem parseHandlers_mem (h : Handler) :
    ∀ (confs : List (HandlerKind × Option RoleConfig)) (roles : List Handler),
      h ∈ parseHandlers roles confs → h ∈ roles ∨ h.conf.Enabled = true := by
  intro confs
  induction confs with
  | nil => intro roles hm; exact Or.inl hm
  | cons conf confs ih =>
    intro roles hm
    rcases conf with ⟨kind, oc⟩
    cases oc with
    | none => exact ih roles (by simpa [parseHandlers, parseHandler] using hm)
    | some rc =>
      by_cases hen : rc.Enabled = true
      · have hm2 : h ∈ parseHandlers (roles ++ [⟨kind, rc⟩]) confs := by
          simpa [parseHandlers, parseHandler, hen] using hm
        rcases ih _ hm2 with hin | hin
        · rcases List.mem_append.mp hin with hin | hin
          · exact Or.inl hin
          · right
            have : h = ⟨kind, rc⟩ := by simpa using hin
            rw [this]
            exact hen
        · exact Or.inr hin
      · have hen2 : rc.Enabled = false := by simpa using hen
        exact ih roles (by simpa [parseHandlers, parseHandler, hen2] using hm)

theorem parse_mem (s : Server) (h : Handler) (hm : h ∈ s.parse) :
    h ∈ s.roles ∨ h.conf.Enabled = true := by
  unfold Server.parse at hm
  have hfold : ∀ (chains : List ChainConfig) (roles : List Handler),
      (∀ x ∈ roles, x ∈ s.roles ∨ x.conf.Enabled = true) →
      ∀ x ∈ chains.foldl
        (fun roles chain => parseHandlers roles
          [(HandlerKind.HeaderSync, chain.HeaderSync), (HandlerKind.SrcTxSync, chain.SrcTxSync),
           (HandlerKind.SrcTxCommit, chain.SrcTxCommit),
           (HandlerKind.PolyTxCommit, chain.PolyTxCommit)]) roles,
        x ∈ s.roles ∨ x.conf.Enabled = true := by
    intro chains
    induction chains with
    | nil => intro roles hr x hx; exact hr x (by simpa using hx)
    | cons ch chains ih =>
      intro roles hr x hx
      rw [List.foldl_cons] at hx
      refine ih _ ?_ x hx
      intro y hy
      rcases parseHandlers_mem y _ roles hy with hin | hin
      · exact hr y hin
      · exact Or.inr hin
  refine hfold s.config.Chains _ ?_ h hm
  intro x hx
  cases hp : s.config.Poly with
  | none =>
    rw [hp] at hx
    exact Or.inl hx
  | some pc =>
    rw [hp] at hx
    exact parseHandlers_mem x _ s.roles hx

/-- C10: `Server.Start` on the roles it parsed (`s.parse`: the roles the
server had, followed by a handler for each enabled configuration).  (1) The
server keeps the parsed roles, and every parsed handler was a role before or
has an enabled configuration.  (2) If `Init` succeeds on the handlers of `pre`
and fails with `e` on the next handler `h`, `Start` returns exactly `e`, and
its calls are `Init` on `pre` and on `h`, in order, and nothing else: no later
handler is initialised and no handler is started.  (3) If every `Init`
succeeds and `Start` of `h` is the first to fail, with `e`, then `e` is
returned and the calls are `Init` on every role in order, then `Start` on
`pre` and on `h`, in order: no later handler is started.  (4) If every `Init`
and every `Start` succeeds, nil is returned and the calls are `Init` on every
role in order, then `Start` on every role in order. -/
theorem Server_Start_init_then_start {σ : Type} (s : Server) (ops : Ops σ) (w : σ) :
    ((s.Start ops w).1.roles = s.parse ∧
      ∀ h ∈ s.parse, h ∈ s.roles ∨ h.conf.Enabled = true) ∧
    (∀ (pre post : List Handler) (h : Handler) (e : GoError) (w2 : σ),
      s.parse = pre ++ h :: post →
      (initLoop ops pre w).err = none →
      ops.Init h (initLoop ops pre w).world = (some e, w2) →
      (s.Start ops w).2.err = some e ∧
      (s.Start ops w).2.trace = pre.map Event.Init ++ [Event.Init h] ∧
      (s.Start ops w).2.world = w2) ∧
    (∀ (pre post : List Handler) (h : Handler) (e : GoError) (w2 : σ),
      s.parse = pre ++ h :: post →
      (initLoop ops s.parse w).err = none →
      (startLoop ops pre (initLoop ops s.parse w).world).err = none →
      ops.Start h (startLoop ops pre (initLoop ops s.parse w).world).world = (some e, w2) →
      (s.Start ops w).2.err = some e ∧
      (s.Start ops w).2.trace =
        s.parse.map Event.Init ++ (pre.map Event.Start ++ [Event.Start h]) ∧
      (s.Start ops w).2.world = w2) ∧
    ((initLoop ops s.parse w).err = none →
      (startLoop ops s.parse (initLoop ops s.parse w).world).err = none →
      (s.Start ops w).2.err = none ∧
      (s.Start ops w).2.trace = s.parse.map Event.Init ++ s.parse.map Event.Start) := by
  refine ⟨⟨?_, fun h hm => parse_mem s h hm⟩, ?_, ?_, ?_⟩
  · unfold Server.Start
    dsimp only
    split <;> rfl
  · intro pre post h e w2 hparse hok hfail
    have hloop := initLoop_first_failure ops h post e _ w2 hfail pre w hok rfl
    unfold Server.Start
    simp [hparse, hloop]
  · intro pre post h e w2 hparse hok hsok hfail
    have htr := initLoop_trace_of_ok ops s.parse w hok
    have hloop := startLoop_first_failure ops h post e _ w2 hfail pre _ hsok rfl
    rw [← hparse] at hloop
    unfold Server.Start
    simp [hok, hloop, htr]
  · intro hok hsok
    have htr := initLoop_trace_of_ok ops s.parse w hok
    have hstr := startLoop_trace_of_ok ops s.parse _ hsok
    unfold Server.Start
    simp [hok, hsok, htr, hstr]

/-- Witness of C10.  On the sample server whose chain is 13, the parsed roles
are poly sync, header sync and poly commit; `Init` of the second fails, so
`Start` returns that error after two `Init` calls and no `Start` call.  On
the sample server whose chain is 5 every call succeeds. -/
theorem Server_Start_init_then_start_witness :
    ((sampleServer 13).Start sampleOps 0).2.err = some (GoError.errorf "init failed") ∧
    ((sampleServer 13).Start sampleOps 0).2.trace =
      [Event.Init ⟨HandlerKind.PolyTxSync, ⟨true, 0⟩⟩,
       Event.Init ⟨HandlerKind.HeaderSync, ⟨true, 13⟩⟩] ∧
    ((sampleServer 5).Start sampleOps 0).2.err = none ∧
    ((sampleServer 5).Start sampleOps 0).2.trace =
      (sampleServer 5).parse.map Event.Init ++ (sampleServer 5).parse.map Event.Start :=
  have h1 := (Server_Start_init_then_start (sampleServer 13) sampleOps 0).2.1
    [⟨HandlerKind.PolyTxSync, ⟨true, 0⟩⟩] [⟨HandlerKind.PolyTxCommit, ⟨true, 13⟩⟩]
    ⟨HandlerKind.HeaderSync, ⟨true, 13⟩⟩ (GoError.errorf "init failed") 2 (by decide) (by decide)
    (by decide)
  have h2 := (Server_Start_init_then_start (sampleServer 5) sampleOps 0).2.2.2 (by decide)
    (by decide)
  ⟨h1.1, h1.2.1, h2.1, h2.2⟩

end Relayer

/-! ## Theorems: the header of the ok Listener -/

namespace Ok

/-- C11: for every height whose commit query (made at `int64(height)`)
succeeds with result `cr`.  (1) If the header's `ValidatorsHash` equals its
`NextValidatorsHash`, `Header` returns an empty header, an empty hash and no
error, and its only call is the commit query: the validator set is not
queried.  (2) If the two hashes differ, `Header` makes the commit query and
then the validator query at `height`, and nothing else; when the validator
query succeeds with `vs` the header returned is what the codec gives for the
structure built from `cr.Header`, `cr.Commit` and `vs`, the hash is empty,
and the error is nil exactly when the encoding succeeds; when the validator
query fails an error is returned with an empty header and an empty hash. -/
theorem Header_epoch_switch {σ : Type} (t : Tendermint σ) (height : Nat) (w w1 : σ)
    (cr : CommitResult)
    (hq : t.QueryCommitResult (int64 height) w = (Except.ok cr, w1)) :
    (cr.Header.ValidatorsHash = cr.Header.NextValidatorsHash →
      (Header t height w).header = [] ∧ (Header t height w).hash = [] ∧
      (Header t height w).err = none ∧
      (Header t height w).trace = [Event.QueryCommitResult (int64 height)] ∧
      (Header t height w).world = w1) ∧
    (cr.Header.ValidatorsHash ≠ cr.Header.NextValidatorsHash →
      (Header t height w).trace =
        [Event.QueryCommitResult (int64 height), Event.GetValidators height] ∧
      (∀ (vs : List Bytes) (w2 : σ), t.GetValidators height w1 = (Except.ok vs, w2) →
        (Header t height w).header =
          (t.MarshalBinaryBare { Header := cr.Header, Commit := cr.Commit, Valsets := vs }).1 ∧
        (Header t height w).hash = [] ∧
        (Header t height w).world = w2 ∧
        ((t.MarshalBinaryBare { Header := cr.Header, Commit := cr.Commit, Valsets := vs }).2 = none →
          (Header t height w).err = none) ∧
        ((t.MarshalBinaryBare { Header := cr.Header, Commit := cr.Commit, Valsets := vs }).2 ≠ none →
          ∃ e, (Header t height w).err = some e)) ∧
      (∀ (e : GoError) (w2 : σ), t.GetValidators height w1 = (Except.error e, w2) →
        (Header t height w).header = [] ∧ (Header t height w).hash = [] ∧
        (∃ e1, (Header t height w).err = some e1) ∧ (Header t height w).world = w2)) := by
  constructor
  · intro heq
    simp [Header, hq, heq]
  · intro hne
    refine ⟨?_, ?_, ?_⟩
    · rcases hv : t.GetValidators height w1 with ⟨rv, w2⟩
      cases rv with
      | error e => simp [Header, hq, hne, hv]
      | ok vs =>
        rcases hm : t.MarshalBinaryBare { Header := cr.Header, Commit := cr.Commit, Valsets := vs }
          with ⟨header, me⟩
        cases me <;> simp [Header, hq, hne, hv, hm]
    · intro vs w2 hv
      rcases hm : t.MarshalBinaryBare { Header := cr.Header, Commit := cr.Commit, Valsets := vs }
        with ⟨header, me⟩
      cases me <;> simp [Header, hq, hne, hv, hm]
    · intro e w2 hv
      simp [Header, hq, hne, hv]

/-- Witness of C11: on the sample node the validator set changes after height
19 and does not change after height 12. -/
theorem Header_epoch_switch_witness :
    ((Header sampleTendermint 12 ⟨[7]⟩).header = [] ∧
      (Header sampleTendermint 12 ⟨[7]⟩).err = none ∧
      (Header sampleTendermint 12 ⟨[7]⟩).trace = [Event.QueryCommitResult (int64 12)]) ∧
    ((Header sampleTendermint 19 ⟨[7]⟩).trace =
        [Event.QueryCommitResult (int64 19), Event.GetValidators 19] ∧
      (Header sampleTendermint 19 ⟨[7]⟩).header =
        (sampleMarshalBinaryBare ⟨⟨[1], [2], [19]⟩, [5, 5], [[19, 1], [19, 2]]⟩).1 ∧
      (Header sampleTendermint 19 ⟨[7]⟩).err = none) :=
  have h12 := (Header_epoch_switch sampleTendermint 12 ⟨[7]⟩ ⟨[7]⟩ ⟨⟨[1], [1], [12]⟩, [5, 5]⟩
    rfl).1 (by decide)
  have h19 := (Header_epoch_switch sampleTendermint 19 ⟨[7]⟩ ⟨[7]⟩ ⟨⟨[1], [2], [19]⟩, [5, 5]⟩
    rfl).2 (by decide)
  have h19v := h19.2.1 [[19, 1], [19, 2]] ⟨[7]⟩ rfl
  ⟨⟨h12.1, h12.2.2.1, h12.2.2.2.1⟩, ⟨h19.1, h19v.1, h19v.2.2.2.1 (by decide)⟩⟩

end Ok

/-! ## Theorems: submission and call packing of the eth Submitter -/

namespace Eth

/-- C12: for every Tx with `len(DstData) = 0`, `submit` returns nil, makes no
call (no `wallet.Send`, no `wallet.SendWithAccount`), and leaves the message,
hence `DstHash`, and the world unchanged; the same holds after `DstGasPrice`
and `DstGasPriceX` are replaced by any two strings, whatever the number
parsers make of them, and whether or not the Submitter has a wallet. -/
theorem submit_empty_payload {σ : Type} (s : Submitter) (c : Chain σ) (tx : Tx) (w : σ)
    (hlen : tx.DstData.length = 0) :
    (submit s c tx w).out = Outcome.ok ∧
    (submit s c tx w).trace = [] ∧
    (submit s c tx w).tx = tx ∧
    (submit s c tx w).tx.DstHash = tx.DstHash ∧
    (submit s c tx w).world = w ∧
    (∀ (price priceX : String),
      (submit s c { tx with DstGasPrice := price, DstGasPriceX := priceX } w).out = Outcome.ok ∧
      (submit s c { tx with DstGasPrice := price, DstGasPriceX := priceX } w).trace = [] ∧
      (submit s c { tx with DstGasPrice := price, DstGasPriceX := priceX } w).tx.DstHash =
        tx.DstHash) := by
  refine ⟨?_, ?_, ?_, ?_, ?_, ?_⟩
  · simp [submit, hlen]
  · simp [submit, hlen]
  · simp [submit, hlen]
  · simp [submit, hlen]
  · simp [submit, hlen]
  · intro price priceX
    simp [submit, hlen]

/-- Witness of C12: an empty payload with gas prices that are no numbers. -/
theorem submit_empty_payload_witness :
    strictChain.SetStringInt "12 gwei" = none ∧
    (submit sampleSubmitter strictChain
      { Tx.zero with DstGasPrice := "12 gwei", DstGasPriceX := "x", DstHash := "0x01" }
      ⟨10, [1], []⟩).out = Outcome.ok ∧
    (submit sampleSubmitter strictChain
      { Tx.zero with DstGasPrice := "12 gwei", DstGasPriceX := "x", DstHash := "0x01" }
      ⟨10, [1], []⟩).trace = [] ∧
    (submit sampleSubmitter strictChain
      { Tx.zero with DstGasPrice := "12 gwei", DstGasPriceX := "x", DstHash := "0x01" }
      ⟨10, [1], []⟩).tx.DstHash = "0x01" :=
  have h := submit_empty_payload sampleSubmitter strictChain
    { Tx.zero with DstGasPrice := "12 gwei", DstGasPriceX := "x", DstHash := "0x01" }
    ⟨10, [1], []⟩ rfl
  ⟨rfl, h.1, h.2.1, h.2.2.2.1⟩


end Eth

end PolyRelayer
